import Mathlib

/-!
Verification of the TalkingDB document model (`talkingdb/models/document`).

This file gives a shallow embedding of the parts of the codebase that the
verified properties talk about: the run engine (`base/base.py`), paragraph
and table models (`primitive/paragraph.py`, `primitive/table.py`), the
layout container (`layouts/layout.py`), and the document-level hierarchy
builder and placeholder mutation engine (`document.py`, `resolver.py`,
`mutations.py`).

Python strings are modelled as `List Char`.  Python `Optional[T]` fields
are `Option T`; Python truthiness of an optional string (`None` and `""`
are falsy) is `pyTruthy`.  Python `float` scalars that are carried but
never used in any verified property (font sizes, match scores) are
modelled as exact rationals; the decimal formatting helper agrees with
Python's `str(float)` on the short exact decimals the code produces.
Integer comparisons of Euclidean colour distances against the thresholds
10 and 60 are modelled by comparing squared distances against 100 and
3600, which is exact for integer coordinates.
-/

abbrev Str := List Char

/-- Python truthiness of an `Optional[str]`: `None` and `""` are falsy. -/
def pyTruthy (s : Option Str) : Bool :=
  match s with
  | none => false
  | some t => t ≠ []

/-- Python truthiness of an `Optional[bool]`: only `True` is truthy. -/
def pyTruthyB (b : Option Bool) : Bool :=
  match b with
  | none => false
  | some v => v

/-- Python truthiness of an `Optional[List[str]]`: `None` and `[]` are falsy. -/
def pyTruthyL (l : Option (List Str)) : Bool :=
  match l with
  | none => false
  | some xs => xs ≠ []

/-- Python whitespace test for `str.strip()` and `\s`; the names appearing in
the repository are ASCII, for which `Char.isWhitespace` agrees with Python. -/
def pySpace (c : Char) : Bool := c.isWhitespace

/-- Python `s.strip()`: drop whitespace from both ends. -/
def pyStrip (s : Str) : Str :=
  ((s.dropWhile pySpace).reverse.dropWhile pySpace).reverse

/-- Python `s.strip(chars)`: drop any of the given characters from both ends. -/
def pyStripChars (cs : List Char) (s : Str) : Str :=
  ((s.dropWhile (cs.contains ·)).reverse.dropWhile (cs.contains ·)).reverse

def strLower (s : Str) : Str := s.map Char.toLower

def strUpper (s : Str) : Str := s.map Char.toUpper

/-- Python `hay.find(needle)`: index of the first occurrence, or `none`
(Python returns `-1`; the callers only test `!= -1` and use the index). -/
def strFind (hay needle : Str) : Option Nat :=
  match hay with
  | [] => if needle = [] then some 0 else none
  | _ :: t => if needle.isPrefixOf hay then some 0 else (strFind t needle).map (· + 1)

/-- Python `needle in hay`. -/
def strContains (hay needle : Str) : Bool := (strFind hay needle).isSome

/-- Python `str.split()` (no argument): split on whitespace runs, no empties. -/
def pyWordsAux : Str → Str → List Str
  | [], acc => if acc = [] then [] else [acc.reverse]
  | c :: rest, acc =>
    if pySpace c then
      if acc = [] then pyWordsAux rest [] else acc.reverse :: pyWordsAux rest []
    else pyWordsAux rest (c :: acc)

def pyWords (s : Str) : List Str := pyWordsAux s []

/-- Split a string at the first occurrence of `sep`, Python `s.split(sep, 1)`
restricted to the "separator present" case used by the style parser. -/
def splitFirstAt (sep : Char) (s : Str) : Str × Str :=
  (s.takeWhile (· ≠ sep), (s.dropWhile (· ≠ sep)).drop 1)

/-- Python `s.split(sep)` for a one-character separator. -/
def pySplitOn (sep : Char) (s : Str) : List Str := s.splitOn sep

/-- Python `str.splitlines()` restricted to the line breaks `\n`, `\r\n`, `\r`. -/
def pySplitLines : Str → Str → List Str
  | [], acc => if acc = [] then [] else [acc.reverse]
  | '\r' :: '\n' :: rest, acc => acc.reverse :: pySplitLines rest []
  | '\r' :: rest, acc => acc.reverse :: pySplitLines rest []
  | '\n' :: rest, acc => acc.reverse :: pySplitLines rest []
  | c :: rest, acc => pySplitLines rest (c :: acc)

def digitsToNat (s : Str) : Nat :=
  s.foldl (fun n c => n * 10 + (c.toNat - 48)) 0

/-- Python `int(s)` restricted to plain digit strings; on other input the
Python call raises `ValueError` and the embedding yields `none` (no verified
property exercises that path). -/
def parseNat? (s : Str) : Option Nat :=
  let t := pyStrip s
  if t ≠ [] ∧ t.all Char.isDigit then some (digitsToNat t) else none

/-- Python `float(s)` restricted to plain decimal literals; other inputs
raise in Python and yield `none` here (unexercised by the properties). -/
def parseDecimal? (s : Str) : Option ℚ :=
  let t := pyStrip s
  match pySplitOn '.' t with
  | [ip] => if ip ≠ [] ∧ ip.all Char.isDigit then some (digitsToNat ip) else none
  | [ip, fp] =>
    if (ip.all Char.isDigit) ∧ (fp.all Char.isDigit) ∧ (ip ≠ [] ∨ fp ≠ []) then
      some ((digitsToNat ip : ℚ) + (digitsToNat fp : ℚ) / ((10 : ℚ) ^ fp.length))
    else none
  | _ => none

/-- Decimal digits of the fractional part `num/den`, stopping when exact. -/
def fracDigits : Nat → Nat → Nat → Str
  | 0, _, _ => []
  | _ + 1, 0, _ => []
  | fuel + 1, rem, den =>
    (Char.ofNat (48 + rem * 10 / den)) :: fracDigits fuel (rem * 10 % den) den

/-- Model of Python `str(float)` for the nonnegative short exact decimals the
code manipulates: always shows at least one fractional digit (`12.0`). -/
def fmtFloat (q : ℚ) : Str :=
  let sgn : Str := if q < 0 then ['-'] else []
  let n := q.num.natAbs
  let d := q.den
  let frac := fracDigits 17 (n % d) d
  sgn ++ (Nat.repr (n / d)).toList ++ ['.'] ++ (if frac = [] then ['0'] else frac)

/-- Python `html.escape(s)` (quote=True). -/
def htmlEscape (s : Str) : Str :=
  s.flatMap fun c =>
    if c = '&' then "&amp;".toList
    else if c = '<' then "&lt;".toList
    else if c = '>' then "&gt;".toList
    else if c = '"' then "&quot;".toList
    else if c = '\'' then "&#x27;".toList
    else [c]

/-- Inverse direction used by `html.parser` (`convert_charrefs=True`) for the
handful of character references that can appear in the inputs at hand. -/
def htmlUnescape : Nat → Str → Str
  | 0, s => s
  | _ + 1, [] => []
  | fuel + 1, '&' :: rest =>
    let name := rest.takeWhile (· ≠ ';')
    let tail := (rest.dropWhile (· ≠ ';')).drop 1
    if rest.contains ';' then
      if name = "amp".toList then '&' :: htmlUnescape fuel tail
      else if name = "lt".toList then '<' :: htmlUnescape fuel tail
      else if name = "gt".toList then '>' :: htmlUnescape fuel tail
      else if name = "quot".toList then '"' :: htmlUnescape fuel tail
      else if name = "#x27".toList ∨ name = "#39".toList then '\'' :: htmlUnescape fuel tail
      else '&' :: htmlUnescape fuel rest
    else '&' :: htmlUnescape fuel rest
  | fuel + 1, c :: rest => c :: htmlUnescape fuel rest

def unescapeStr (s : Str) : Str := htmlUnescape (s.length + 1) s

/-! ### HTML tokenization

Model of the stdlib `html.parser.HTMLParser` event stream, restricted to the
closed tag/attribute grammar the repository feeds it (start tags with quoted
or unquoted attributes, end tags, text data; `convert_charrefs` applied to
data and attribute values).  Tag and attribute names are lowercased as the
stdlib does. -/

inductive HTok where
  | startTag : Str → List (Str × Option Str) → HTok
  | endTag : Str → HTok
  | textData : Str → HTok
deriving DecidableEq

def isNameEnd (c : Char) : Bool := pySpace c ∨ c = '=' ∨ c = '>' ∨ c = '/'

def parseAttrsAux : Nat → Str → List (Str × Option Str)
  | 0, _ => []
  | fuel + 1, s =>
    let s := s.dropWhile pySpace
    match s with
    | [] => []
    | _ =>
      let name := strLower (s.takeWhile (fun c => ¬ isNameEnd c))
      let rest := (s.dropWhile (fun c => ¬ isNameEnd c)).dropWhile pySpace
      if name = [] then []
      else
        match rest with
        | '=' :: rest' =>
          let rest' := rest'.dropWhile pySpace
          match rest' with
          | '"' :: r =>
            let v := r.takeWhile (· ≠ '"')
            (name, some (unescapeStr v)) :: parseAttrsAux fuel ((r.dropWhile (· ≠ '"')).drop 1)
          | '\'' :: r =>
            let v := r.takeWhile (· ≠ '\'')
            (name, some (unescapeStr v)) :: parseAttrsAux fuel ((r.dropWhile (· ≠ '\'')).drop 1)
          | r =>
            let v := r.takeWhile (fun c => ¬ pySpace c)
            (name, some (unescapeStr v)) :: parseAttrsAux fuel (r.dropWhile (fun c => ¬ pySpace c))
        | r => (name, none) :: parseAttrsAux fuel r

def tokenizeHtml : Nat → Str → List HTok
  | 0, _ => []
  | _ + 1, [] => []
  | fuel + 1, '<' :: '/' :: rest =>
    let name := rest.takeWhile (· ≠ '>')
    let tail := (rest.dropWhile (· ≠ '>')).drop 1
    HTok.endTag (strLower (pyStrip name)) :: tokenizeHtml fuel tail
  | fuel + 1, '<' :: rest =>
    let inner := rest.takeWhile (· ≠ '>')
    let tail := (rest.dropWhile (· ≠ '>')).drop 1
    let name := strLower (inner.takeWhile (fun c => ¬ isNameEnd c))
    let attrs := parseAttrsAux (inner.length + 1) (inner.dropWhile (fun c => ¬ isNameEnd c))
    HTok.startTag name attrs :: tokenizeHtml fuel tail
  | fuel + 1, s =>
    let dat := s.takeWhile (· ≠ '<')
    HTok.textData (unescapeStr dat) :: tokenizeHtml fuel (s.dropWhile (· ≠ '<'))

def htmlTokens (s : Str) : List HTok := tokenizeHtml (s.length + 1) s

/-! ### Run engine (`elements/base/base.py`) -/

/-- Model of `RunAttributes` (base.py).  `font_size` is a Python float carried as an
exact rational. -/
structure RunAttributes where
  bold : Option Bool := none
  italic : Option Bool := none
  underline : Option Bool := none
  font_size : Option ℚ := none
  font_name : Option Str := none
  font_color : Option Str := none
  subscript : Option Bool := none
  superscript : Option Bool := none
  caseMode : Option Str := none
  styles : Option (List Str) := none
  comment_ids : Option (List Str) := none
  comment_text : Option Str := none
  tracked_change : Option Str := none
deriving DecidableEq

/-- Model of `RunModel` (base.py); `type` defaults to `"Run"` and `id` to `None`. -/
structure RunModel where
  text : Str
  attributes : RunAttributes := {}
  type : Str := "Run".toList
  id : Option Str := none
deriving DecidableEq

namespace RunModel

/-- Model of `RunModel.to_text(mode)`. -/
def to_text (r : RunModel) (mode : Str) : Str :=
  let a := r.attributes
  if mode = "full".toList then r.text
  else if mode = "wrap".toList then
    if pyTruthyB a.subscript then "<sub>".toList ++ r.text ++ "</sub>".toList
    else if pyTruthyB a.superscript then "<sup>".toList ++ r.text ++ "</sup>".toList
    else r.text
  else if mode = "drop".toList then
    if pyTruthyB a.subscript ∨ pyTruthyB a.superscript then [] else r.text
  else r.text

/-- Model of `RunModel.to_html()`: CSS styles, HTML attributes, then tag wrapping in
source order (`strong`, `em`, `sub`, `sup`), finally the outer `span`. -/
def to_html (r : RunModel) : Str :=
  if r.text = [] then []
  else
    let a := r.attributes
    let styles : List Str :=
      (match a.font_size with
       | some q => if q ≠ 0 then ["font-size: ".toList ++ fmtFloat q ++ "pt".toList] else []
       | none => []) ++
      (if pyTruthy a.font_name then ["font-family: '".toList ++ a.font_name.getD [] ++ "'".toList] else []) ++
      (if pyTruthy a.font_color then ["color: #".toList ++ a.font_color.getD [] ] else []) ++
      (if pyTruthyB a.underline then ["text-decoration: underline".toList] else []) ++
      (if pyTruthy a.caseMode then
        (if a.caseMode = some ("upper".toList) then ["text-transform: uppercase".toList]
         else if a.caseMode = some ("capitalize".toList) then ["text-transform: capitalize".toList]
         else if a.caseMode = some ("sentence".toList) then ["text-transform: none".toList]
         else [])
       else [])
    let style_attr : Str :=
      if styles ≠ [] then " style=\"".toList ++ List.intercalate ("; ".toList) styles ++ "\"".toList else []
    let html_attrs : List Str :=
      (if pyTruthyL a.styles then ["class=\"".toList ++ List.intercalate (" ".toList) (a.styles.getD []) ++ "\"".toList] else []) ++
      (if pyTruthyL a.comment_ids then ["data-comments=\"".toList ++ List.intercalate (" ".toList) (a.comment_ids.getD []) ++ "\"".toList] else []) ++
      (if pyTruthy a.tracked_change then ["data-track=\"".toList ++ a.tracked_change.getD [] ++ "\"".toList] else [])
    let attr_str : Str :=
      if html_attrs ≠ [] then " ".toList ++ List.intercalate (" ".toList) html_attrs else []
    let w0 := htmlEscape r.text
    let w1 := if pyTruthyB a.bold then "<strong>".toList ++ w0 ++ "</strong>".toList else w0
    let w2 := if pyTruthyB a.italic then "<em>".toList ++ w1 ++ "</em>".toList else w1
    let w3 := if pyTruthyB a.subscript then "<sub>".toList ++ w2 ++ "</sub>".toList else w2
    let w4 := if pyTruthyB a.superscript then "<sup>".toList ++ w3 ++ "</sup>".toList else w3
    "<span".toList ++ style_attr ++ attr_str ++ ">".toList ++ w4 ++ "</span>".toList

/-- Model of `RunModel.get_color()`: explicit font colour (uppercased), else the first
style class matching the anchored pattern `color:RRGGBB`. -/
def get_color (r : RunModel) : Option Str :=
  let a := r.attributes
  if pyTruthy a.font_color then some (strUpper (a.font_color.getD []))
  else if pyTruthyL a.styles then
    ((a.styles.getD []).find? fun s =>
        s.take 6 = "color:".toList ∧ ((s.drop 6).take 6).length = 6 ∧
          ((s.drop 6).take 6).all (fun c => c.isDigit ∨ ('a' ≤ c ∧ c ≤ 'f') ∨ ('A' ≤ c ∧ c ≤ 'F'))).map
      (fun s => strUpper ((s.drop 6).take 6))
  else none

def from_text (text : Str) : RunModel := { text := text }

/-- Model of `RunModel.slice_run(run, start, end)`: `none` when
`start < 0 ∨ end > len ∨ start ≥ end` (indices are naturals here, so the
`start < 0` disjunct is vacuous; the callers only pass clamped naturals). -/
def slice_run (run : RunModel) (start stop : Nat) : Option RunModel :=
  if stop > run.text.length ∨ start ≥ stop then none
  else some { text := (run.text.take stop).drop start, attributes := run.attributes }

/-- Model of `RunModel.split_run(run, start, end)`. -/
def split_run (run : RunModel) (start stop : Nat) :
    Option RunModel × Option RunModel × Option RunModel :=
  (slice_run run 0 start, slice_run run start stop, slice_run run stop run.text.length)

end RunModel

/-! ### Cross-run window search and text surgery (base.py) -/

/-- The result dict of `RunModel.find_run_window`. -/
structure RunWindow where
  start_run : Nat
  end_run : Nat
  char_start : Nat
  char_end : Nat
  merged_text : Str
deriving DecidableEq

/-- Model of `"".join(texts[i:i+w])`. -/
def mergedSlice (texts : List Str) (i w : Nat) : Str :=
  ((texts.drop i).take w).flatten

/-- One probe of the inner loop body of `find_run_window`. -/
def windowAt (texts : List Str) (text : Str) (i w : Nat) : Option RunWindow :=
  match strFind (mergedSlice texts i w) text with
  | some idx => some ⟨i, i + w, idx, idx + text.length, mergedSlice texts i w⟩
  | none => none

/-- Inner loop `for i in range(0, n - w + 1)` of `find_run_window`,
unrolled as a recursion on the remaining iteration count. -/
def findRowFrom (texts : List Str) (text : Str) (w i : Nat) : Nat → Option RunWindow
  | 0 => none
  | steps + 1 =>
    match windowAt texts text i w with
    | some win => some win
    | none => findRowFrom texts text w (i + 1) steps

/-- Outer loop `for w in range(1, n + 1)` of `find_run_window`. -/
def findWidthsFrom (texts : List Str) (text : Str) (n w : Nat) : Nat → Option RunWindow
  | 0 => none
  | steps + 1 =>
    match findRowFrom texts text w 0 (n - w + 1) with
    | some win => some win
    | none => findWidthsFrom texts text n (w + 1) steps

namespace RunModel

/-- Model of `RunModel.find_run_window(runs, text)`. -/
def find_run_window (runs : List RunModel) (text : Str) : Option RunWindow :=
  findWidthsFrom (runs.map (fun r => r.text)) text runs.length 1 runs.length

/-- Loop body sequence of `RunModel.drop_text`: for each run of the window,
keep the non-empty before/after fragments of its split. -/
def dropLoop (cs ce : Nat) : List RunModel → Nat → List RunModel
  | [], _ => []
  | r :: rest, offset =>
    let rlen := r.text.length
    let rstart := cs - offset
    let rend := min rlen (ce - offset)
    let s := split_run r rstart rend
    (s.1.toList ++ s.2.2.toList) ++ dropLoop cs ce rest (offset + rlen)

/-- Model of `RunModel.drop_text(runs, text)`. -/
def drop_text (runs : List RunModel) (text : Str) : List RunModel :=
  match find_run_window runs text with
  | none => runs
  | some win =>
    runs.take win.start_run
      ++ dropLoop win.char_start win.char_end
           ((runs.drop win.start_run).take (win.end_run - win.start_run)) 0
      ++ runs.drop win.end_run

/-- Set the tracked-change marker to `"del"` (loop body of `replace_text`). -/
def markDel (r : RunModel) : RunModel :=
  { r with attributes := { r.attributes with tracked_change := some ("del".toList) } }

/-- Set the tracked-change marker to `"ins"`. -/
def markIns (r : RunModel) : RunModel :=
  { r with attributes := { r.attributes with tracked_change := some ("ins".toList) } }

/-- Insertion marking of `replace_text`: every parsed run is marked `"ins"`,
and a truthy comment text is attached to the first inserted run only. -/
def markInserted (rs : List RunModel) (comment : Option Str) : List RunModel :=
  match rs with
  | [] => []
  | r :: rest =>
    (if pyTruthy comment then
       { markIns r with attributes := { (markIns r).attributes with comment_text := comment } }
     else markIns r) :: rest.map markIns

/-- Loop of `replace_text` collecting the before / deletion-marked middle /
after fragment lists, in run order. -/
def replaceLoop (cs ce : Nat) : List RunModel → Nat →
    List RunModel × List RunModel × List RunModel
  | [], _ => ([], [], [])
  | r :: rest, offset =>
    let rlen := r.text.length
    let rstart := cs - offset
    let rend := min rlen (ce - offset)
    let s := split_run r rstart rend
    let acc := replaceLoop cs ce rest (offset + rlen)
    (s.1.toList ++ acc.1, (s.2.1.map markDel).toList ++ acc.2.1, s.2.2.toList ++ acc.2.2)

/-- Model of `_RunHTMLParser.handle_starttag`: derive the pushed attribute frame from
the parent frame and the tag. -/
def htmlStartAttrs (parent : RunAttributes) (tag : Str) (attrs : List (Str × Option Str)) :
    RunAttributes :=
  if tag = "strong".toList then { parent with bold := some true }
  else if tag = "em".toList then { parent with italic := some true }
  else if tag = "sub".toList then { parent with subscript := some true }
  else if tag = "sup".toList then { parent with superscript := some true }
  else if tag = "span".toList then
    let withClass :=
      match (attrs.find? (fun p => p.1 = "class".toList)).map Prod.snd with
      | some (some v) => { parent with styles := some (pyWords v) }
      | _ => parent
    match (attrs.find? (fun p => p.1 = "style".toList)).map Prod.snd with
    | some (some sty) =>
      (pySplitOn ';' sty).foldl
        (fun (a : RunAttributes) rule =>
          if rule.contains ':' then
            let kv := splitFirstAt ':' rule
            let key := pyStrip kv.1
            let value := pyStrip kv.2
            if key = "font-size".toList ∧ "pt".toList.isSuffixOf value then
              match parseDecimal? (value.take (value.length - 2)) with
              | some q => { a with font_size := some q }
              | none => a
            else if key = "font-family".toList then
              { a with font_name := some (pyStripChars ['\'', '"'] value) }
            else if key = "color".toList ∧ value.take 1 = "#".toList then
              { a with font_color := some (value.drop 1) }
            else if key = "text-decoration".toList ∧ strContains value ("underline".toList) then
              { a with underline := some true }
            else if key = "text-transform".toList then
              { a with caseMode :=
                  if value = "uppercase".toList then some ("upper".toList)
                  else if value = "capitalize".toList then some ("capitalize".toList)
                  else none }
            else a
          else a)
        withClass
    | _ => withClass
  else parent

/-- Model of `_RunHTMLParser` event loop: stack of attribute frames (top at the head,
never popped below the initial frame), runs collected in order. -/
def runHtmlFold : List HTok → List RunAttributes → List RunModel → List RunModel
  | [], _, acc => acc
  | HTok.startTag tag attrs :: toks, stack, acc =>
    let parent := stack.headD {}
    runHtmlFold toks (htmlStartAttrs parent tag attrs :: stack) acc
  | HTok.endTag _ :: toks, stack, acc =>
    runHtmlFold toks (if stack.length > 1 then stack.tail else stack) acc
  | HTok.textData dat :: toks, stack, acc =>
    if dat = [] then runHtmlFold toks stack acc
    else runHtmlFold toks stack (acc ++ [{ text := dat, attributes := stack.headD {} }])

/-- Model of `RunModel.from_html(html_text)`. -/
def from_html (html_text : Str) : List RunModel :=
  runHtmlFold (htmlTokens html_text) [{}] []

/-- Model of `RunModel.replace_text(runs, text, html, comment_text)`. -/
def replace_text (runs : List RunModel) (text html : Str) (comment_text : Option Str) :
    List RunModel :=
  match find_run_window runs text with
  | none => runs
  | some win =>
    let parts := replaceLoop win.char_start win.char_end
      ((runs.drop win.start_run).take (win.end_run - win.start_run)) 0
    runs.take win.start_run
      ++ parts.1 ++ parts.2.1
      ++ markInserted (from_html html) comment_text
      ++ parts.2.2
      ++ runs.drop win.end_run

/-- Model of `RunModel.merge_attributes(runs)`: fieldwise common value, else unset. -/
def merge_attributes (runs : List RunModel) : RunAttributes :=
  match runs with
  | [] => {}
  | r0 :: rest =>
    rest.foldl
      (fun (base : RunAttributes) r =>
        { bold := if base.bold = r.attributes.bold then base.bold else none
          italic := if base.italic = r.attributes.italic then base.italic else none
          underline := if base.underline = r.attributes.underline then base.underline else none
          font_size := if base.font_size = r.attributes.font_size then base.font_size else none
          font_name := if base.font_name = r.attributes.font_name then base.font_name else none
          font_color := if base.font_color = r.attributes.font_color then base.font_color else none
          subscript := if base.subscript = r.attributes.subscript then base.subscript else none
          superscript := if base.superscript = r.attributes.superscript then base.superscript else none
          caseMode := if base.caseMode = r.attributes.caseMode then base.caseMode else none
          styles := if base.styles = r.attributes.styles then base.styles else none
          comment_ids := if base.comment_ids = r.attributes.comment_ids then base.comment_ids else none
          comment_text := if base.comment_text = r.attributes.comment_text then base.comment_text else none
          tracked_change := if base.tracked_change = r.attributes.tracked_change then base.tracked_change else none })
      r0.attributes

end RunModel

/-! ### Placeholders (`placeholders/placeholder.py`)

Context sub-records (`inline_data`, `keyvalue`, `tablecell`, `paragraph`,
`heading_info`) and the mapping fields `template_text`,
`source_instruction`, `writing_instruction` are carried opaquely by the
source and never read by any code a verified property mentions; they are
omitted from the embedding.  `score` is a Python float carried as a
rational. -/

inductive PlaceholderStatus where
  | matchingPending
  | matchesFound
  | matchesNotFound
  | replacementPending
  | replacementDone
  | replacementNotFound
deriving DecidableEq

inductive PlaceholderType where
  | inline
  | keyvalue
  | tablecell
  | heading
  | caption
  | paragraph
deriving DecidableEq

inductive PlaceholderFutureElement where
  | paragraph
  | table
  | unknown
deriving DecidableEq

inductive MatcherType where
  | smeAdd
  | smeDrop
  | cnmAdd
  | pwrDrop
deriving DecidableEq

structure MatchedNode where
  id : Str
  content : Str
  index : Str
  score : ℚ
  type : MatcherType
  heading_path : List Str
  filename : Str
  prompt : Option Str := none
  transformed_content : Option Str := none
deriving DecidableEq

structure PlaceholderModel where
  id : Str
  text : Str
  status : PlaceholderStatus := PlaceholderStatus.matchingPending
  replaced_text : Option Str := none
  replaced_reference : Option (List Str) := none
  replaced_comment : Option Str := none
  deleted : Bool := false
  -- `matches` (name is reserved notation in Lean)
  matchNodes : List MatchedNode := []
  element_id : Option Str := none
  type : PlaceholderType := PlaceholderType.inline
  future_element : PlaceholderFutureElement := PlaceholderFutureElement.unknown
  dependency : Option (List Str) := none
  feedback_count : Nat := 0
deriving DecidableEq

/-! ### Fuzzy style matching (`classify_style`, paragraph.py)

`classify_style` calls `difflib.get_close_matches(name, patterns, cutoff=0.7)`
with a single one-word pattern.  For the short junk-free strings involved
(autojunk only triggers from length 200) the call reduces to
`SequenceMatcher(None, pattern, name).ratio() >= 0.7`, since `ratio` is a
lower bound for the two quick ratios.  `ratio` is `2*M/T` where `M` is the
total size of the matching blocks and `T` the combined length; `2*M/T >= 0.7`
is compared exactly as `20*M >= 7*T` (the float literal comparison agrees on
these small rationals). -/

/-- Length of the longest common run of equal characters ending at positions
`i` of `a` and `j` of `b`, clipped at the window starts `alo`/`blo` (the
`j2len` dynamic program of `SequenceMatcher.find_longest_match`). -/
def lcsEndAt (a b : Str) (alo blo : Nat) : Nat → Nat → Nat → Nat
  | 0, _, _ => 0
  | fuel + 1, i, j =>
    if a[i]? = b[j]? ∧ (a[i]?).isSome then
      if i = alo ∨ j = blo then 1
      else lcsEndAt a b alo blo fuel (i - 1) (j - 1) + 1
    else 0

/-- Model of `find_longest_match(alo, ahi, blo, bhi)` without junk: scan `i`
ascending, then `j` ascending, keeping the first strictly larger run. -/
def findLongestMatch (a b : Str) (alo ahi blo bhi : Nat) : Nat × Nat × Nat :=
  (List.range' alo (ahi - alo)).foldl
    (fun best i =>
      (List.range' blo (bhi - blo)).foldl
        (fun (best : Nat × Nat × Nat) j =>
          let k := lcsEndAt a b alo blo (i + 1) i j
          if k > best.2.2 then (i + 1 - k, j + 1 - k, k) else best)
        best)
    (alo, blo, 0)

/-- Total size of the matching blocks (`get_matching_blocks`), by recursive
decomposition around each longest match. -/
def matchTotalAux (a b : Str) : Nat → Nat → Nat → Nat → Nat → Nat
  | 0, _, _, _, _ => 0
  | fuel + 1, alo, ahi, blo, bhi =>
    let m := findLongestMatch a b alo ahi blo bhi
    if m.2.2 = 0 then 0
    else
      m.2.2 + matchTotalAux a b fuel alo m.1 blo m.2.1
            + matchTotalAux a b fuel (m.1 + m.2.2) ahi (m.2.1 + m.2.2) bhi

def matchTotal (a b : Str) : Nat :=
  matchTotalAux a b (a.length + b.length + 1) 0 a.length 0 b.length

/-- Model of `SequenceMatcher(None, p, name).ratio() >= 0.7`. -/
def ratioGeCutoff (p name : Str) : Bool :=
  20 * matchTotal p name ≥ 7 * (p.length + name.length)

/-- Model of `is_fuzzy_match(name, patterns)` of `classify_style` (cutoff 0.7). -/
def is_fuzzy_match (name : Str) (patterns : List Str) : Bool :=
  let name := pyStrip (strLower name)
  patterns.any (fun p => ratioGeCutoff p name)

/-- Model of `extract_heading_level`: leftmost position where `heading` is followed by
optional whitespace and at least one digit (`re.search(r"heading\s*(\d+)")`
on the already lowercased name). -/
def extract_heading_level : Str → Option Nat
  | [] => none
  | c :: rest =>
    if "heading".toList.isPrefixOf (c :: rest) then
      let digits := (((c :: rest).drop 7).dropWhile pySpace).takeWhile Char.isDigit
      if digits ≠ [] then some (digitsToNat digits) else extract_heading_level rest
    else extract_heading_level rest

/-! ### Paragraphs (`primitive/paragraph.py`) -/

/-- Model of `ParagraphStyleModel`; float-valued layout scalars are rationals. -/
structure ParagraphStyleModel where
  name : Str
  alignment : Option Str := none
  space_before : Option ℚ := none
  space_after : Option ℚ := none
  outline_level : Option Nat := none
  bold : Option Bool := none
  italic : Option Bool := none
  font_size : Option ℚ := none
  font_name : Option Str := none
  font_color : Option Str := none
  underline : Option Bool := none
  caseMode : Option Str := none
  left_indent : Option ℚ := none
  right_indent : Option ℚ := none
  hanging_indent : Option ℚ := none
  left_tab_stop : Option ℚ := none
  center_tab_stop : Option ℚ := none
  right_tab_stop : Option ℚ := none
  line_spacing_rule : Option Str := none
  line_spacing_value : Option ℚ := none
  keep_with_next : Option Bool := none
  page_break_before : Option Bool := none
  widow_control : Option Bool := none
  add_footer_border_top : Option Bool := none
  add_border_top_if_no_text : Option Bool := none
  border_style : Option Str := none
  border_color : Option Str := none
  border_size : Option ℚ := none
deriving DecidableEq

/-- Model of `ParagraphStyleModel.classify_style`, lifted to the optional style the
caller holds (`elem.style.classify_style()` presupposes a style object; the
in-method guard `not self` also yields `(None, None)`). -/
def classify_style (style : Option ParagraphStyleModel) : Option Str × Option Nat :=
  match style with
  | none => (none, none)
  | some st =>
    if st.name = [] then (none, none)
    else
      let name := pyStrip (strLower st.name)
      if is_fuzzy_match name ["caption".toList] then (some ("caption".toList), none)
      else if is_fuzzy_match name ["heading".toList] then
        (some ("heading".toList), extract_heading_level name)
      else (none, none)

/-- Model of `ParagraphModel`. -/
structure ParagraphModel where
  style : Option ParagraphStyleModel := none
  runs : List RunModel := []
  type : Str := "Paragraph".toList
  id : Option Str := none
  parent_ref_id : Option Str := none
  is_caption : Bool := false
  is_heading : Bool := false
  heading_level : Option Nat := none
  is_example : Bool := false
  is_instruction : Bool := false
  is_list : Bool := false
  list_type : Option Str := none
  list_level : Option Nat := some 0
deriving DecidableEq

namespace ParagraphModel

/-- Model of `ParagraphModel.to_text(mode)`. -/
def to_text (p : ParagraphModel) (mode : Str) : Str :=
  (p.runs.map (fun r => r.to_text mode)).flatten

end ParagraphModel

/-- Model of `hex_to_rgb` of `classify_intent`: strip `#`, require six hex digits. -/
def hexDigit? (c : Char) : Option Nat :=
  if c.isDigit then some (c.toNat - 48)
  else if 'a' ≤ c ∧ c ≤ 'f' then some (c.toNat - 87)
  else if 'A' ≤ c ∧ c ≤ 'F' then some (c.toNat - 55)
  else none

def hexPair? (c d : Char) : Option Nat :=
  match hexDigit? c, hexDigit? d with
  | some x, some y => some (16 * x + y)
  | _, _ => none

/-- Model of `hex_to_rgb(hex_color)`; invalid hex digits raise in Python (`int(_,16)`)
and yield `none` here — every property involving colours assumes valid hex. -/
def hex_to_rgb (s : Str) : Option (Nat × Nat × Nat) :=
  let t := s.filter (· ≠ '#')
  match t with
  | [c1, c2, c3, c4, c5, c6] =>
    match hexPair? c1 c2, hexPair? c3 c4, hexPair? c5 c6 with
    | some r, some g, some b => some (r, g, b)
    | _, _, _ => none
  | _ => none

/-- Squared Euclidean RGB distance; `color_distance(c1,c2) > t` in the source
is `distSq > t*t` exactly, for integer coordinates. -/
def distSq (c1 c2 : Nat × Nat × Nat) : Int :=
  ((c1.1 : Int) - c2.1) ^ 2 + ((c1.2.1 : Int) - c2.2.1) ^ 2 + ((c1.2.2 : Int) - c2.2.2) ^ 2

def GREEN_REF : Nat × Nat × Nat := (0x00, 0xB0, 0x50)

def RED_REF : Nat × Nat × Nat := (0xC9, 0x21, 0x1E)

/-- Colour collection loop of `classify_intent`: `none` as soon as a run has
no resolvable colour or an invalid hex string. -/
def collectColors : List RunModel → Option (List (Nat × Nat × Nat))
  | [] => some []
  | r :: rest =>
    match r.get_color with
    | none => none
    | some c =>
      match hex_to_rgb c with
      | none => none
      | some rgb => (collectColors rest).map (rgb :: ·)

namespace ParagraphModel

/-- Model of `ParagraphModel.classify_intent()`. -/
def classify_intent (p : ParagraphModel) : Option Str :=
  match collectColors p.runs with
  | none => none
  | some [] => none
  | some (base :: rest) =>
    if (base :: rest).any (fun c => distSq base c > 100) then none
    else if distSq base GREEN_REF < 3600 then some ("instruction".toList)
    else if distSq base RED_REF < 3600 then some ("example".toList)
    else none

end ParagraphModel

/-! ### Tables (`primitive/table.py`) -/

/-- Model of `TableCellModel`; `rowspan`/`colspan` are Python ints. -/
structure TableCellModel where
  paragraphs : List ParagraphModel := []
  colspan : Int := 1
  rowspan : Int := 1
  type : Str := "TableCell".toList
  id : Option Str := none
deriving DecidableEq

/-- Model of `TableModel`; a `none` cell is a slot spanned over by a previous row. -/
structure TableModel where
  rows : List (List (Option TableCellModel)) := []
  type : Str := "Table".toList
  id : Option Str := none
  parent_ref_id : Option Str := none
  caption_ref_id : Option Str := none
deriving DecidableEq

namespace TableModel

/-- Model of `TableModel.get_type()`; `self.rows[0]` raises `IndexError` on a rowless
table, modelled by `none`. -/
def get_type (t : TableModel) : Option Str :=
  match t.rows with
  | [] => none
  | row0 :: _ =>
    let col_count : Int := row0.length
    let firstTwo : List TableCellModel := (row0.take 2).filterMap (fun c => c)
    let colspan_count : Int := (firstTwo.map (fun c => c.colspan)).sum
    if col_count = 1 then some ("Layout".toList)
    else if col_count - colspan_count = 0 then some ("Keyvalue".toList)
    else some ("Unknown".toList)

end TableModel

/-! ### `_HTMLTableParser` and table construction from HTML / delimited text -/

/-- State of `_HTMLTableParser`: finished rows, the open row, the open cell
(text buffer plus spans). -/
structure HTableState where
  rows : List (List (Str × Int × Int)) := []
  current_row : Option (List (Str × Int × Int)) := none
  current_cell : Option (Int × Int) := none
  buffer : Str := []

/-- Model of `int(attrs.get(k, 1))`: missing attribute defaults to 1; a present value
must parse (Python raises `ValueError` otherwise — unexercised here). -/
def spanAttr (attrs : List (Str × Option Str)) (key : Str) : Int :=
  match (attrs.find? (fun p => p.1 = key)).map Prod.snd with
  | some (some v) => ((parseNat? v).map (Int.ofNat)).getD 1
  | _ => 1

def htableStep (st : HTableState) (tok : HTok) : HTableState :=
  match tok with
  | HTok.startTag tag attrs =>
    if tag = "tr".toList then { st with current_row := some [] }
    else if tag = "td".toList ∨ tag = "th".toList then
      { st with current_cell := some (spanAttr attrs ("rowspan".toList), spanAttr attrs ("colspan".toList)),
                buffer := [] }
    else st
  | HTok.textData dat =>
    match st.current_cell with
    | some _ => { st with buffer := st.buffer ++ dat }
    | none => st
  | HTok.endTag tag =>
    if (tag = "td".toList ∨ tag = "th".toList) ∧ (st.current_cell).isSome then
      match st.current_cell, st.current_row with
      | some (rs, cs), some row =>
        { st with current_row := some (row ++ [(pyStrip st.buffer, rs, cs)]),
                  current_cell := none, buffer := [] }
      | some _, none => { st with current_cell := none, buffer := [] }
      | none, _ => st
    else if tag = "tr".toList ∧ (st.current_row).isSome then
      { st with rows := st.rows ++ [(st.current_row).getD []], current_row := none }
    else st

namespace TableModel

/-- Model of `TableModel._from_html(html)`. -/
def fromHtmlTable (html : Str) : TableModel :=
  let final := (htmlTokens html).foldl htableStep {}
  { rows := final.rows.map (fun row => row.map (fun cell =>
      some { paragraphs := [{ style := none, runs := [RunModel.from_text cell.1] }],
             rowspan := cell.2.1, colspan := cell.2.2 })) }

/-- Model of `TableModel._detect_delimiter(line)`. -/
def detect_delimiter (line : Str) : Char :=
  if line.contains '\t' then '\t'
  else if line.contains '|' then '|'
  else ','

/-- Model of `TableModel._from_delimited_text(text)`. -/
def fromDelimitedText (text : Str) : TableModel :=
  let lines := ((pySplitLines text []).map pyStrip).filter (fun l => l ≠ [])
  match lines with
  | [] => { rows := [] }
  | l0 :: _ =>
    let delimiter := detect_delimiter l0
    { rows := lines.map (fun line =>
        ((pySplitOn delimiter line).map pyStrip).map (fun part =>
          some { paragraphs := [{ style := none, runs := [RunModel.from_text part] }] })) }

/-- Model of `TableModel.from_html_or_text(content)`. -/
def from_html_or_text (content : Str) : TableModel :=
  let content := pyStrip content
  if content = [] then { rows := [] }
  else if strContains (strLower content) ("<table".toList) then fromHtmlTable content
  else fromDelimitedText content

end TableModel

/-! ### Elements and layout containers (`elements/element.py`, `layouts/layout.py`) -/

/-- Model of `ElementModel = Union[ParagraphModel, TableModel]`. -/
inductive ElementModel where
  | para : ParagraphModel → ElementModel
  | table : TableModel → ElementModel
deriving DecidableEq

def ElementModel.elemId : ElementModel → Option Str
  | ElementModel.para p => p.id
  | ElementModel.table t => t.id

structure HeaderModel where
  runs : List RunModel := []
  type : Str := "Header".toList
  id : Option Str := none
deriving DecidableEq

structure FooterModel where
  runs : List RunModel := []
  type : Str := "Footer".toList
  id : Option Str := none
deriving DecidableEq

/-- Model of `LayoutModel`.  The element list holds `Option ElementModel`: layout
deserialization inserts `None` for records of unknown type (see
`LayoutModel.from_dict`). -/
structure LayoutModel where
  orientation : Str
  header : Option HeaderModel := none
  footer : Option FooterModel := none
  elements : List (Option ElementModel) := []
  type : Str := "Layout".toList
  id : Option Str := none
deriving DecidableEq

/-! ### Layout deserialization (`LayoutModel.from_dict`)

The input dictionaries are modelled as typed records holding the hydrated
payload (nested `from_dict` calls on runs/cells are value-preserving for
well-typed input, and `from_dict_safe` drops keys that are not dataclass
fields, which the record type enforces by construction). -/

/-- An element record of the serialized form: a `type` tag plus the payload
fields consumed by `ParagraphModel.from_dict` / `TableModel.from_dict`. -/
structure ElementRecord where
  type : Str
  style : Option ParagraphStyleModel := none
  runs : List RunModel := []
  rows : List (List (Option TableCellModel)) := []
  id : Option Str := none
deriving DecidableEq

/-- The inner `element_from_dict` of `LayoutModel.from_dict`: dispatch on the
declared `type`; any other tag falls off the end of the Python function and
returns `None`. -/
def element_from_dict (d : ElementRecord) : Option ElementModel :=
  if d.type = "Paragraph".toList then
    some (ElementModel.para { style := d.style, runs := d.runs, type := d.type, id := d.id })
  else if d.type = "Table".toList then
    some (ElementModel.table { rows := d.rows, type := d.type, id := d.id })
  else none

/-- A layout record of the serialized form. -/
structure LayoutRecord where
  orientation : Str
  header : Option HeaderModel := none
  footer : Option FooterModel := none
  elements : List ElementRecord := []
  id : Option Str := none
deriving DecidableEq

namespace LayoutModel

/-- Model of `LayoutModel.from_dict(data)`: the list comprehension keeps the `None`
produced by `element_from_dict` for unrecognized element types. -/
def from_dict (d : LayoutRecord) : LayoutModel :=
  { orientation := d.orientation
    header := d.header
    footer := d.footer
    elements := d.elements.map element_from_dict
    id := d.id }

end LayoutModel

/-! ### Placeholder appliers (paragraph.py, table.py, layout.py) -/

/-- Model of `build_comment_text(ph)` (paragraph.py). -/
def build_comment_text (ph : PlaceholderModel) : Option Str :=
  if ¬ pyTruthyL ph.replaced_reference then none
  else
    let refs := ph.replaced_reference.getD []
    let parts0 : List Str := if pyTruthy ph.replaced_comment then [ph.replaced_comment.getD []] else []
    let lines : List Str := ph.matchNodes.filterMap fun m =>
      if refs.contains m.id then
        let path : Str := if m.heading_path ≠ [] then List.intercalate (" > ".toList) m.heading_path else []
        let label : Str := if path ≠ [] then m.filename ++ " > ".toList ++ path else m.filename
        some ("- ".toList ++ label)
      else none
    let parts : List Str :=
      parts0 ++ (if lines ≠ [] then ["Sources:\n".toList ++ List.intercalate ("\n".toList) lines] else [])
    if parts ≠ [] then some (List.intercalate ("\n\n".toList) parts) else none

namespace ParagraphModel

/-- Model of `ParagraphModel.apply_inline_placeholder` (the engine ignores the boolean
result for paragraphs; the updated paragraph is the effect). -/
def apply_inline_placeholder (p : ParagraphModel) (ph : PlaceholderModel) : ParagraphModel :=
  if ¬ pyTruthy ph.replaced_text then p
  else if ¬ strContains (p.to_text ("full".toList)) ph.text then p
  else { p with runs := (RunModel.replace_text p.runs ph.text (ph.replaced_text.getD [])
                          (build_comment_text ph)) }

/-- Model of `ParagraphModel.apply_deleted_placeholder`. -/
def apply_deleted_placeholder (p : ParagraphModel) (ph : PlaceholderModel) : ParagraphModel :=
  if ¬ strContains (p.to_text ("full".toList)) ph.text then p
  else { p with runs := RunModel.drop_text p.runs ph.text }

end ParagraphModel

/-- Apply `f` to the first list element satisfying `pred` (the `for … return`
pattern of the table-cell appliers). -/
def applyFirst (pred : ParagraphModel → Bool) (f : ParagraphModel → ParagraphModel) :
    List ParagraphModel → List ParagraphModel
  | [] => []
  | p :: rest => if pred p then f p :: rest else p :: applyFirst pred f rest

namespace TableCellModel

/-- Model of `TableCellModel.apply_placeholder`. -/
def apply_placeholder (cell : TableCellModel) (ph : PlaceholderModel) : TableCellModel :=
  if ¬ pyTruthy ph.replaced_text then cell
  else
    { cell with paragraphs :=
        (applyFirst (fun para => strContains (para.to_text ("full".toList)) ph.text)
          (fun para => { para with runs :=
              (RunModel.replace_text para.runs ph.text (ph.replaced_text.getD [])
                (build_comment_text ph)) })
          cell.paragraphs) }

/-- Model of `TableCellModel.apply_deleted_placeholder`. -/
def apply_deleted_placeholder (cell : TableCellModel) (ph : PlaceholderModel) : TableCellModel :=
  { cell with paragraphs :=
      (applyFirst (fun para => strContains (para.to_text ("full".toList)) ph.text)
        (fun para => { para with runs := RunModel.drop_text para.runs ph.text })
        cell.paragraphs) }

end TableCellModel

namespace HeaderModel

def to_text (h : HeaderModel) (mode : Str) : Str :=
  (h.runs.map (fun r => r.to_text mode)).flatten

def apply_inline_placeholder (h : HeaderModel) (ph : PlaceholderModel) : HeaderModel :=
  if ¬ pyTruthy ph.replaced_text then h
  else if ¬ strContains (h.to_text ("full".toList)) ph.text then h
  else { h with runs := (RunModel.replace_text h.runs ph.text (ph.replaced_text.getD [])
                          (build_comment_text ph)) }

def apply_deleted_placeholder (h : HeaderModel) (ph : PlaceholderModel) : HeaderModel :=
  if ¬ strContains (h.to_text ("full".toList)) ph.text then h
  else { h with runs := RunModel.drop_text h.runs ph.text }

end HeaderModel

namespace FooterModel

def to_text (f : FooterModel) (mode : Str) : Str :=
  (f.runs.map (fun r => r.to_text mode)).flatten

def apply_inline_placeholder (f : FooterModel) (ph : PlaceholderModel) : FooterModel :=
  if ¬ pyTruthy ph.replaced_text then f
  else if ¬ strContains (f.to_text ("full".toList)) ph.text then f
  else { f with runs := (RunModel.replace_text f.runs ph.text (ph.replaced_text.getD [])
                          (build_comment_text ph)) }

def apply_deleted_placeholder (f : FooterModel) (ph : PlaceholderModel) : FooterModel :=
  if ¬ strContains (f.to_text ("full".toList)) ph.text then f
  else { f with runs := RunModel.drop_text f.runs ph.text }

end FooterModel

/-! ### Structural replacement (`mutations.py`, `resolver.py`) -/

/-- Model of `ElementReplacement`. -/
structure ElementReplacement where
  old_element_id : Option Str
  new_elements : List ElementModel
deriving DecidableEq

/-- Model of `resolve_structural_replacement(element, ph)` for a paragraph element
(the engine dispatch guarantees the `isinstance` premise). -/
def resolve_structural_replacement (p : ParagraphModel) (ph : PlaceholderModel) :
    Option ElementReplacement :=
  if ph.future_element ≠ PlaceholderFutureElement.table then none
  else if ¬ pyTruthy ph.replaced_text then none
  else
    let table := TableModel.from_html_or_text (ph.replaced_text.getD [])
    some { old_element_id := p.id
           new_elements := [ElementModel.table { table with parent_ref_id := p.parent_ref_id }] }

/-! ### Document model (`document.py`) -/

/-- Addresses of indexable objects in the layout tree, standing in for the
Python object references stored in `_element_index` (the tree shape is
stable while the index is alive, so an address dereferences to the same,
possibly text-mutated, object). -/
inductive ElemLoc where
  | layoutLoc : Nat → ElemLoc
  | headerLoc : Nat → ElemLoc
  | footerLoc : Nat → ElemLoc
  | elemLoc : Nat → Nat → ElemLoc
  | runLoc : Nat → Nat → Nat → ElemLoc
  | cellLoc : Nat → Nat → Nat → Nat → ElemLoc
  | cellParaLoc : Nat → Nat → Nat → Nat → Nat → ElemLoc
  | cellRunLoc : Nat → Nat → Nat → Nat → Nat → Nat → ElemLoc
deriving DecidableEq

/-- Model of `DocumentModel` with its two derived caches.  `_element_index` holds
id-to-address entries (insertion order; a later duplicate id shadows an
earlier one, as in a Python dict); `_paragraph_index` and `_paragraph_order`
are the paragraph-order cache. -/
structure DocumentModel where
  layouts : List LayoutModel := []
  type : Str := "Document".toList
  id : Option Str := none
  filename : Option Str := none
  element_index : List (Str × ElemLoc) := []
  paragraph_index : List (Option Str × ParagraphModel) := []
  paragraph_order : List (Option Str) := []
deriving DecidableEq

/-- Pair each list element with its position (`enumerate`). -/
def withIdx {α : Type} (l : List α) : List (α × Nat) := l.zip (List.range l.length)

/-- Model of `_index_element`: only objects with a truthy `id` are indexed. -/
def idxEntry (oid : Option Str) (loc : ElemLoc) : List (Str × ElemLoc) :=
  match oid with
  | some s => if s ≠ [] then [(s, loc)] else []
  | none => []

/-- Index entries contributed by one element (`_build_element_index` loop
body): the element itself, then for tables every non-null cell with its
paragraphs and their runs, for paragraphs every run.  A `None` element
(unknown deserialized type) contributes nothing. -/
def elemIndexEntries (i j : Nat) : Option ElementModel → List (Str × ElemLoc)
  | none => []
  | some (ElementModel.para p) =>
    idxEntry p.id (ElemLoc.elemLoc i j)
      ++ ((withIdx p.runs).flatMap fun rk => idxEntry rk.1.id (ElemLoc.runLoc i j rk.2))
  | some (ElementModel.table t) =>
    idxEntry t.id (ElemLoc.elemLoc i j)
      ++ ((withIdx t.rows).flatMap fun rowr =>
            (withIdx rowr.1).flatMap fun cellc =>
              match cellc.1 with
              | none => []
              | some cell =>
                idxEntry cell.id (ElemLoc.cellLoc i j rowr.2 cellc.2)
                  ++ ((withIdx cell.paragraphs).flatMap fun pp =>
                        idxEntry pp.1.id (ElemLoc.cellParaLoc i j rowr.2 cellc.2 pp.2)
                          ++ ((withIdx pp.1.runs).flatMap fun rk =>
                                idxEntry rk.1.id (ElemLoc.cellRunLoc i j rowr.2 cellc.2 pp.2 rk.2))))

/-- Model of `DocumentModel._build_element_index` as an id-to-address list. -/
def buildIndexLocs (layouts : List LayoutModel) : List (Str × ElemLoc) :=
  (withIdx layouts).flatMap fun li =>
    let (layout, i) := li
    idxEntry layout.id (ElemLoc.layoutLoc i)
      ++ (match layout.header with
          | some h => idxEntry h.id (ElemLoc.headerLoc i)
          | none => [])
      ++ (match layout.footer with
          | some f => idxEntry f.id (ElemLoc.footerLoc i)
          | none => [])
      ++ ((withIdx layout.elements).flatMap fun ej => elemIndexEntries i ej.2 ej.1)

/-- Dict lookup `self._element_index.get(ph.element_id)`: the last entry for
a key wins (later assignments overwrite). -/
def lookupLoc (idx : List (Str × ElemLoc)) (key : Option Str) : Option ElemLoc :=
  match key with
  | none => none
  | some s => (idx.reverse.find? (fun e => e.1 = s)).map (fun e => e.2)

/-! ### Hierarchy builder (`DocumentModel.build_hierarchy`) -/

/-- Builder state: heading stack (level to most recent heading id at that
level; the outer `Option` is dict membership, the inner the stored id),
running last-heading and last-caption pointers. -/
structure HState where
  stack : Nat → Option (Option Str)
  last_heading : Option Str
  last_caption : Option Str

def initHState : HState :=
  { stack := fun _ => none, last_heading := none, last_caption := none }

/-- Model of `for l in range(level - 1, 0, -1): if l in heading_stack: …`: the value at
the nearest populated level below, scanning `l, l-1, …, 1`. -/
def stackParent (st : Nat → Option (Option Str)) : Nat → Option Str
  | 0 => none
  | l + 1 =>
    match st (l + 1) with
    | some v => v
    | none => stackParent st l

/-- Intent flags of the non-heading paragraph branch and of table cell
paragraphs: `is_instruction` / `is_example` are set, never cleared. -/
def applyIntentFlags (p : ParagraphModel) : ParagraphModel :=
  let intent := p.classify_intent
  { p with
    is_instruction := if intent = some ("instruction".toList) then true else p.is_instruction
    is_example := if intent = some ("example".toList) then true else p.is_example }

/-- Paragraph case of the `build_hierarchy` loop.  `kind == "heading" and
level` requires a truthy level (present and non-zero). -/
def hbPara (st : HState) (p : ParagraphModel) : ParagraphModel × HState :=
  let c := classify_style p.style
  if c.1 = some ("heading".toList) ∧ c.2.getD 0 ≠ 0 then
    let level := c.2.getD 0
    let parent := stackParent st.stack (level - 1)
    let p' := { p with is_heading := true, heading_level := some level, parent_ref_id := parent }
    ( p',
      { stack := fun m => if m = level then some p.id else if level < m then none else st.stack m
        last_heading := p.id
        last_caption := none } )
  else if c.1 = some ("caption".toList) then
    ({ p with is_caption := true, parent_ref_id := st.last_heading },
     { st with last_caption := p.id })
  else
    ({ applyIntentFlags p with parent_ref_id := st.last_heading },
     { st with last_caption := none })

/-- Table case of the `build_hierarchy` loop.  The Python loop dereferences
every cell, so a spanned-over `None` slot would raise `AttributeError`; the
embedding skips it (no property exercises spanned tables here). -/
def hbTable (st : HState) (t : TableModel) : TableModel × HState :=
  let t' := { t with
    parent_ref_id := st.last_heading
    caption_ref_id := if pyTruthy st.last_caption then st.last_caption else t.caption_ref_id
    rows := t.rows.map (fun row => row.map (Option.map (fun cell =>
      { cell with paragraphs := cell.paragraphs.map applyIntentFlags }))) }
  (t', { st with last_caption := none })

def hbElem (st : HState) : Option ElementModel → Option ElementModel × HState
  | some (ElementModel.para p) =>
    let r := hbPara st p
    (some (ElementModel.para r.1), r.2)
  | some (ElementModel.table t) =>
    let r := hbTable st t
    (some (ElementModel.table r.1), r.2)
  | none => (none, st)

def hbList (st : HState) : List (Option ElementModel) → List (Option ElementModel) × HState
  | [] => ([], st)
  | e :: rest =>
    let r := hbElem st e
    let rr := hbList r.2 rest
    (r.1 :: rr.1, rr.2)

def hbLayouts (st : HState) : List LayoutModel → List LayoutModel × HState
  | [] => ([], st)
  | ly :: rest =>
    let r := hbList st ly.elements
    let rr := hbLayouts r.2 rest
    ({ ly with elements := r.1 } :: rr.1, rr.2)

namespace DocumentModel

/-- Model of `DocumentModel.build_hierarchy()`: one pass over `iter_elements()`. -/
def build_hierarchy (doc : DocumentModel) : DocumentModel :=
  { doc with layouts := (hbLayouts initHState doc.layouts).1 }

/-- Model of `DocumentModel.invalidate_paragraph_index()`. -/
def invalidate_paragraph_index (doc : DocumentModel) : DocumentModel :=
  { doc with paragraph_index := [], paragraph_order := [] }

/-- Model of `DocumentModel.invalidate_index()`. -/
def invalidate_index (doc : DocumentModel) : DocumentModel :=
  { doc with element_index := [] }

/-- Model of `DocumentModel._build_paragraph_index()` contents. -/
def paragraphOrderOf (doc : DocumentModel) : List (Option Str) :=
  (doc.layouts.flatMap (fun ly => ly.elements)).filterMap fun e =>
    match e with
    | some (ElementModel.para p) => some p.id
    | _ => none

end DocumentModel

/-! ### Placeholder mutation engine (`DocumentModel.apply_placeholders`) -/

/-- Replace the element at list position `i` (no-op when out of range). -/
def modifyIdx {α : Type} (f : α → α) : Nat → List α → List α
  | _, [] => []
  | 0, x :: xs => f x :: xs
  | n + 1, x :: xs => x :: modifyIdx f n xs

/-- What an index address currently dereferences to. -/
inductive LocTarget where
  | layoutT : LayoutModel → LocTarget
  | headerT : HeaderModel → LocTarget
  | footerT : FooterModel → LocTarget
  | paraT : ParagraphModel → LocTarget
  | tableT : TableModel → LocTarget
  | cellT : TableCellModel → LocTarget
  | runT : RunModel → LocTarget

def getLoc (layouts : List LayoutModel) : ElemLoc → Option LocTarget
  | ElemLoc.layoutLoc i => (layouts[i]?).map LocTarget.layoutT
  | ElemLoc.headerLoc i => ((layouts[i]?).bind (fun ly => ly.header)).map LocTarget.headerT
  | ElemLoc.footerLoc i => ((layouts[i]?).bind (fun ly => ly.footer)).map LocTarget.footerT
  | ElemLoc.elemLoc i j =>
    ((layouts[i]?).bind (fun ly => ly.elements[j]?)).bind fun e =>
      match e with
      | some (ElementModel.para p) => some (LocTarget.paraT p)
      | some (ElementModel.table t) => some (LocTarget.tableT t)
      | none => none
  | ElemLoc.runLoc i j k =>
    ((layouts[i]?).bind (fun ly => ly.elements[j]?)).bind fun e =>
      match e with
      | some (ElementModel.para p) => (p.runs[k]?).map LocTarget.runT
      | _ => none
  | ElemLoc.cellLoc i j r c =>
    ((layouts[i]?).bind (fun ly => ly.elements[j]?)).bind fun e =>
      match e with
      | some (ElementModel.table t) =>
        (((t.rows[r]?).bind (fun row => row[c]?)).bind (fun cell => cell)).map LocTarget.cellT
      | _ => none
  | ElemLoc.cellParaLoc i j r c p =>
    ((layouts[i]?).bind (fun ly => ly.elements[j]?)).bind fun e =>
      match e with
      | some (ElementModel.table t) =>
        ((((t.rows[r]?).bind (fun row => row[c]?)).bind (fun cell => cell)).bind
          (fun cell => cell.paragraphs[p]?)).map LocTarget.paraT
      | _ => none
  | ElemLoc.cellRunLoc i j r c p k =>
    ((layouts[i]?).bind (fun ly => ly.elements[j]?)).bind fun e =>
      match e with
      | some (ElementModel.table t) =>
        (((((t.rows[r]?).bind (fun row => row[c]?)).bind (fun cell => cell)).bind
          (fun cell => cell.paragraphs[p]?)).bind (fun para => para.runs[k]?)).map LocTarget.runT
      | _ => none

/-- In-place mutation of the paragraph an address points at. -/
def modifyParaAt (layouts : List LayoutModel) (loc : ElemLoc)
    (f : ParagraphModel → ParagraphModel) : List LayoutModel :=
  match loc with
  | ElemLoc.elemLoc i j =>
    modifyIdx (fun ly => { ly with elements :=
      (modifyIdx (Option.map fun e =>
        match e with
        | ElementModel.para p => ElementModel.para (f p)
        | t => t) j ly.elements) }) i layouts
  | ElemLoc.cellParaLoc i j r c p =>
    modifyIdx (fun ly => { ly with elements :=
      (modifyIdx (Option.map fun e =>
        match e with
        | ElementModel.table t =>
          ElementModel.table { t with rows :=
            (modifyIdx (fun row => modifyIdx (Option.map fun cell =>
              { cell with paragraphs := modifyIdx f p cell.paragraphs }) c row) r t.rows) }
        | q => q) j ly.elements) }) i layouts
  | _ => layouts

/-- In-place mutation of the cell an address points at. -/
def modifyCellAt (layouts : List LayoutModel) (loc : ElemLoc)
    (f : TableCellModel → TableCellModel) : List LayoutModel :=
  match loc with
  | ElemLoc.cellLoc i j r c =>
    modifyIdx (fun ly => { ly with elements :=
      (modifyIdx (Option.map fun e =>
        match e with
        | ElementModel.table t =>
          ElementModel.table { t with rows :=
            (modifyIdx (fun row => modifyIdx (Option.map f) c row) r t.rows) }
        | q => q) j ly.elements) }) i layouts
  | _ => layouts

def modifyHeaderAt (layouts : List LayoutModel) (loc : ElemLoc)
    (f : HeaderModel → HeaderModel) : List LayoutModel :=
  match loc with
  | ElemLoc.headerLoc i => modifyIdx (fun ly => { ly with header := ly.header.map f }) i layouts
  | _ => layouts

def modifyFooterAt (layouts : List LayoutModel) (loc : ElemLoc)
    (f : FooterModel → FooterModel) : List LayoutModel :=
  match loc with
  | ElemLoc.footerLoc i => modifyIdx (fun ly => { ly with footer := ly.footer.map f }) i layouts
  | _ => layouts

/-- Loop body of `apply_placeholders` for one placeholder: the deleted path,
the `ReplacementDone` path with structural resolution for paragraphs, or a
skip. -/
def phStep (idx : List (Str × ElemLoc))
    (acc : List LayoutModel × List ElementReplacement) (ph : PlaceholderModel) :
    List LayoutModel × List ElementReplacement :=
  let layouts := acc.1
  let ops := acc.2
  if ph.deleted then
    match lookupLoc idx ph.element_id with
    | none => acc
    | some loc =>
      match getLoc layouts loc with
      | some (LocTarget.paraT _) =>
        (modifyParaAt layouts loc (fun p => p.apply_deleted_placeholder ph), ops)
      | some (LocTarget.cellT _) =>
        (modifyCellAt layouts loc (fun cl => cl.apply_deleted_placeholder ph), ops)
      | some (LocTarget.headerT _) =>
        (modifyHeaderAt layouts loc (fun h => h.apply_deleted_placeholder ph), ops)
      | some (LocTarget.footerT _) =>
        (modifyFooterAt layouts loc (fun f => f.apply_deleted_placeholder ph), ops)
      | _ => acc
  else if ph.status ≠ PlaceholderStatus.replacementDone then acc
  else
    match lookupLoc idx ph.element_id with
    | none => acc
    | some loc =>
      match getLoc layouts loc with
      | some (LocTarget.headerT _) =>
        (modifyHeaderAt layouts loc (fun h => h.apply_inline_placeholder ph), ops)
      | some (LocTarget.footerT _) =>
        (modifyFooterAt layouts loc (fun f => f.apply_inline_placeholder ph), ops)
      | some (LocTarget.paraT p) =>
        (match resolve_structural_replacement p ph with
         | some op => (layouts, ops ++ [op])
         | none => (modifyParaAt layouts loc (fun q => q.apply_inline_placeholder ph), ops))
      | some (LocTarget.cellT _) =>
        (modifyCellAt layouts loc (fun cl => TableCellModel.apply_placeholder cl ph), ops)
      | _ => acc

/-- Model of `DocumentModel._apply_replacement(op)`: splice the new elements over the
first element whose `id` equals the old id (Python `==` on optionals, so a
`None` id matches a `None`-id element); a `None` element entry would raise in
Python and never matches here. -/
def applyReplacementElems (op : ElementReplacement) :
    List (Option ElementModel) → Option (List (Option ElementModel))
  | [] => none
  | e :: rest =>
    match e with
    | some el =>
      if el.elemId = op.old_element_id then some (op.new_elements.map some ++ rest)
      else (applyReplacementElems op rest).map (e :: ·)
    | none => (applyReplacementElems op rest).map (e :: ·)

def applyReplacementLayouts (layouts : List LayoutModel) (op : ElementReplacement) :
    List LayoutModel :=
  match layouts with
  | [] => []
  | ly :: rest =>
    match applyReplacementElems op ly.elements with
    | some elems => { ly with elements := elems } :: rest
    | none => ly :: applyReplacementLayouts rest op

namespace DocumentModel

/-- Model of `DocumentModel.apply_placeholders(placeholders)`: empty batch is an
immediate return; otherwise build the element index, run the batch (inline
and delete edits eagerly, structural replacements queued), apply the queued
structural replacements, and invalidate the element index (the built index
is live during the loop and cleared at the end; the paragraph-order cache is
not touched anywhere in the engine). -/
def apply_placeholders (doc : DocumentModel) (phs : List PlaceholderModel) : DocumentModel :=
  if phs = [] then doc
  else
    let idx := buildIndexLocs doc.layouts
    let folded := phs.foldl (phStep idx) (doc.layouts, [])
    let layouts2 := folded.2.foldl applyReplacementLayouts folded.1
    { doc with layouts := layouts2, element_index := [] }

end DocumentModel

/-! ## Specification-side descriptions used by the verified properties -/

/-- Character offsets at which each run of a window starts, given the offset
of the first one. -/
def offsetsFrom : List RunModel → Nat → List Nat
  | [], _ => []
  | r :: rest, o => o :: offsetsFrom rest (o + r.text.length)

/-- The non-empty "before" fragments of the window's runs. -/
def beforeFragments (cs ce : Nat) (rs : List RunModel) (o : Nat) : List RunModel :=
  (rs.zip (offsetsFrom rs o)).filterMap fun p =>
    RunModel.slice_run p.1 0 (cs - p.2)

/-- The non-empty "middle" fragments of the window's runs. -/
def middleFragments (cs ce : Nat) (rs : List RunModel) (o : Nat) : List RunModel :=
  (rs.zip (offsetsFrom rs o)).filterMap fun p =>
    RunModel.slice_run p.1 (cs - p.2) (min p.1.text.length (ce - p.2))

/-- The non-empty "middle" fragments, each marked as a tracked deletion. -/
def deletionFragments (cs ce : Nat) (rs : List RunModel) (o : Nat) : List RunModel :=
  (middleFragments cs ce rs o).map RunModel.markDel

/-- The non-empty "after" fragments of the window's runs. -/
def afterFragments (cs ce : Nat) (rs : List RunModel) (o : Nat) : List RunModel :=
  (rs.zip (offsetsFrom rs o)).filterMap fun p =>
    RunModel.slice_run p.1 (min p.1.text.length (ce - p.2)) p.1.text.length

theorem replaceLoop_eq (cs ce : Nat) (rs : List RunModel) : ∀ o : Nat,
    RunModel.replaceLoop cs ce rs o =
      (beforeFragments cs ce rs o, deletionFragments cs ce rs o, afterFragments cs ce rs o) := by
  induction rs with
  | nil =>
    intro o
    simp [RunModel.replaceLoop, beforeFragments, deletionFragments, middleFragments,
      afterFragments, offsetsFrom]
  | cons r rest ih =>
    intro o
    simp only [RunModel.replaceLoop, RunModel.split_run, ih, beforeFragments,
      deletionFragments, middleFragments, afterFragments, offsetsFrom,
      List.zip_cons_cons, List.filterMap_cons]
    cases hb : RunModel.slice_run r 0 (cs - o) <;>
      cases hm : RunModel.slice_run r (cs - o) (min r.text.length (ce - o)) <;>
        cases ha : RunModel.slice_run r (min r.text.length (ce - o)) r.text.length <;>
          simp [hb, hm, ha]

/-- C1.  When `replace_text` finds a run window for the target, its result
is, in order: the runs before the window unchanged, the non-empty "before"
fragments of the window's runs, the non-empty "middle" fragments each marked
as a tracked deletion, the runs parsed from the HTML replacement each marked
as a tracked insertion (a truthy comment text attached to the first inserted
run only, inside `markInserted`), the non-empty "after" fragments, and the
runs after the window unchanged.  When no window is found the input is
returned unchanged.  In particular, for a single run `"Hello World"` with
target `"Hello"` and replacement `"<strong>Hi</strong>"`, the result is a
deletion-marked `"Hello"`, an insertion-marked bold `"Hi"`, and an unmarked
`" World"`. -/
theorem replace_text_spec :
    (∀ (runs : List RunModel) (text html : Str) (comment : Option Str) (win : RunWindow),
        RunModel.find_run_window runs text = some win →
        RunModel.replace_text runs text html comment =
          runs.take win.start_run
            ++ beforeFragments win.char_start win.char_end
                 ((runs.drop win.start_run).take (win.end_run - win.start_run)) 0
            ++ deletionFragments win.char_start win.char_end
                 ((runs.drop win.start_run).take (win.end_run - win.start_run)) 0
            ++ RunModel.markInserted (RunModel.from_html html) comment
            ++ afterFragments win.char_start win.char_end
                 ((runs.drop win.start_run).take (win.end_run - win.start_run)) 0
            ++ runs.drop win.end_run)
    ∧ (∀ (runs : List RunModel) (text html : Str) (comment : Option Str),
        RunModel.find_run_window runs text = none →
        RunModel.replace_text runs text html comment = runs)
    ∧ RunModel.replace_text [{ text := "Hello World".toList }] ("Hello".toList)
        ("<strong>Hi</strong>".toList) none =
        [RunModel.markDel { text := "Hello".toList },
         RunModel.markIns { text := "Hi".toList, attributes := { bold := some true } },
         { text := " World".toList }] := by
  refine ⟨?_, ?_, ?_⟩
  · intro runs text html comment win h
    simp [RunModel.replace_text, h, replaceLoop_eq]
  · intro runs text html comment h
    simp [RunModel.replace_text, h]
  · decide

/-- Witness for C1 at the single-run example. -/
theorem replace_text_spec_witness :
    RunModel.replace_text [{ text := "Hello World".toList }] ("Hello".toList)
        ("<strong>Hi</strong>".toList) none =
      [({ text := "Hello World".toList } : RunModel)].take 0
        ++ beforeFragments 0 5 (([({ text := "Hello World".toList } : RunModel)].drop 0).take (1 - 0)) 0
        ++ deletionFragments 0 5 (([({ text := "Hello World".toList } : RunModel)].drop 0).take (1 - 0)) 0
        ++ RunModel.markInserted (RunModel.from_html ("<strong>Hi</strong>".toList)) none
        ++ afterFragments 0 5 (([({ text := "Hello World".toList } : RunModel)].drop 0).take (1 - 0)) 0
        ++ [({ text := "Hello World".toList } : RunModel)].drop 1 :=
  replace_text_spec.1 [{ text := "Hello World".toList }] ("Hello".toList)
    ("<strong>Hi</strong>".toList) none ⟨0, 1, 0, 5, "Hello World".toList⟩ (by decide)

/-! ## C2: window minimality -/

theorem isPrefixOf_eq_true_iff (l₁ l₂ : Str) : l₁.isPrefixOf l₂ = true ↔ l₁ <+: l₂ :=
  List.isPrefixOf_iff_prefix

theorem strFind_isSome_iff (hay needle : Str) :
    (strFind hay needle).isSome ↔ needle <:+: hay := by
  induction hay with
  | nil =>
    by_cases h : needle = [] <;> simp [strFind, h, List.infix_nil]
  | cons c t ih =>
    by_cases hp : needle.isPrefixOf (c :: t)
    · simp only [strFind, hp, if_true, Option.isSome_some, true_iff]
      exact ((isPrefixOf_eq_true_iff needle (c :: t)).mp hp).isInfix
    · rw [show strFind (c :: t) needle
            = if needle.isPrefixOf (c :: t) then some 0 else (strFind t needle).map (· + 1)
          from rfl, if_neg hp]
      rw [Option.isSome_map', ih, List.infix_cons_iff]
      have hnp : ¬ needle <+: (c :: t) := fun h => hp ((isPrefixOf_eq_true_iff needle (c :: t)).mpr h)
      tauto

theorem strFind_eq_none_iff (hay needle : Str) :
    strFind hay needle = none ↔ ¬ needle <:+: hay := by
  rw [← strFind_isSome_iff]
  cases strFind hay needle <;> simp

theorem windowAt_eq_none_iff (texts : List Str) (t : Str) (i w : Nat) :
    windowAt texts t i w = none ↔ ¬ t <:+: mergedSlice texts i w := by
  rw [← strFind_eq_none_iff]
  unfold windowAt
  cases strFind (mergedSlice texts i w) t <;> simp

theorem windowAt_eq_some (texts : List Str) (t : Str) (i w : Nat) (win : RunWindow)
    (h : windowAt texts t i w = some win) :
    win.start_run = i ∧ win.end_run = i + w ∧ t <:+: mergedSlice texts i w := by
  unfold windowAt at h
  cases hf : strFind (mergedSlice texts i w) t with
  | none => rw [hf] at h; exact absurd h (by simp)
  | some idx =>
    rw [hf] at h
    have hin : t <:+: mergedSlice texts i w := by
      rw [← strFind_isSome_iff, hf]; simp
    cases h
    exact ⟨rfl, rfl, hin⟩

theorem findRowFrom_eq_none_iff (texts : List Str) (t : Str) (w : Nat) :
    ∀ (steps i : Nat), findRowFrom texts t w i steps = none ↔
      ∀ k, k < steps → windowAt texts t (i + k) w = none := by
  intro steps
  induction steps with
  | zero => intro i; simp [findRowFrom]
  | succ s ih =>
    intro i
    simp only [findRowFrom]
    cases h : windowAt texts t i w with
    | some win =>
      simp only [reduceCtorEq, false_iff]
      intro hall
      exact absurd (hall 0 (Nat.succ_pos s)) (by simp [h])
    | none =>
      simp only [ih (i + 1)]
      constructor
      · intro hall k hk
        match k with
        | 0 => simpa using h
        | k' + 1 =>
          have := hall k' (by omega)
          have harr : i + 1 + k' = i + (k' + 1) := by omega
          rwa [harr] at this
      · intro hall k hk
        have := hall (k + 1) (by omega)
        have harr : i + (k + 1) = i + 1 + k := by omega
        rwa [harr] at this

theorem findRowFrom_eq_some (texts : List Str) (t : Str) (w : Nat) :
    ∀ (steps i : Nat) (win : RunWindow), findRowFrom texts t w i steps = some win →
      ∃ k, k < steps ∧ windowAt texts t (i + k) w = some win ∧
        ∀ j, j < k → windowAt texts t (i + j) w = none := by
  intro steps
  induction steps with
  | zero => intro i win h; exact absurd h (by simp [findRowFrom])
  | succ s ih =>
    intro i win h
    simp only [findRowFrom] at h
    cases hw : windowAt texts t i w with
    | some win' =>
      rw [hw] at h
      cases h
      exact ⟨0, Nat.succ_pos s, by simpa using hw, by omega⟩
    | none =>
      rw [hw] at h
      obtain ⟨k, hk, hksome, hknone⟩ := ih (i + 1) win h
      refine ⟨k + 1, by omega, ?_, ?_⟩
      · have harr : i + (k + 1) = i + 1 + k := by omega
        rwa [harr]
      · intro j hj
        match j with
        | 0 => simpa using hw
        | j' + 1 =>
          have := hknone j' (by omega)
          have harr : i + (j' + 1) = i + 1 + j' := by omega
          rwa [harr]

theorem findWidthsFrom_eq_none_iff (texts : List Str) (t : Str) (n : Nat) :
    ∀ (steps w : Nat), findWidthsFrom texts t n w steps = none ↔
      ∀ k, k < steps → findRowFrom texts t (w + k) 0 (n - (w + k) + 1) = none := by
  intro steps
  induction steps with
  | zero => intro w; simp [findWidthsFrom]
  | succ s ih =>
    intro w
    simp only [findWidthsFrom]
    cases h : findRowFrom texts t w 0 (n - w + 1) with
    | some win =>
      simp only [reduceCtorEq, false_iff]
      intro hall
      exact absurd (by simpa using hall 0 (Nat.succ_pos s)) (by simp [h])
    | none =>
      simp only [ih (w + 1)]
      constructor
      · intro hall k hk
        match k with
        | 0 => simpa using h
        | k' + 1 =>
          have := hall k' (by omega)
          have harr : w + 1 + k' = w + (k' + 1) := by omega
          rwa [harr] at this
      · intro hall k hk
        have := hall (k + 1) (by omega)
        have harr : w + (k + 1) = w + 1 + k := by omega
        rwa [harr] at this

theorem findWidthsFrom_eq_some (texts : List Str) (t : Str) (n : Nat) :
    ∀ (steps w : Nat) (win : RunWindow), findWidthsFrom texts t n w steps = some win →
      ∃ k, k < steps ∧ findRowFrom texts t (w + k) 0 (n - (w + k) + 1) = some win ∧
        ∀ j, j < k → findRowFrom texts t (w + j) 0 (n - (w + j) + 1) = none := by
  intro steps
  induction steps with
  | zero => intro w win h; exact absurd h (by simp [findWidthsFrom])
  | succ s ih =>
    intro w win h
    simp only [findWidthsFrom] at h
    cases hw : findRowFrom texts t w 0 (n - w + 1) with
    | some win' =>
      rw [hw] at h
      cases h
      exact ⟨0, Nat.succ_pos s, by simpa using hw, by omega⟩
    | none =>
      rw [hw] at h
      obtain ⟨k, hk, hksome, hknone⟩ := ih (w + 1) win h
      refine ⟨k + 1, by omega, ?_, ?_⟩
      · have harr : w + (k + 1) = w + 1 + k := by omega
        rwa [harr]
      · intro j hj
        match j with
        | 0 => simpa using hw
        | j' + 1 =>
          have := hknone j' (by omega)
          have harr : w + (j' + 1) = w + 1 + j' := by omega
          rwa [harr]

/-- C2.  For a non-empty target, `find_run_window` returns a window of the
minimal run-span width whose concatenation contains the target, and among
windows of that width the one with the leftmost start run; when no
contiguous sub-sequence's concatenation contains the target it returns
`none`. -/
theorem find_run_window_minimal (runs : List RunModel) (t : Str) (ht : t ≠ []) :
    (RunModel.find_run_window runs t = none →
        ∀ w i, 1 ≤ w → i + w ≤ runs.length →
          ¬ t <:+: mergedSlice (runs.map (fun r => r.text)) i w)
    ∧ (∀ win, RunModel.find_run_window runs t = some win →
        (1 ≤ win.end_run - win.start_run
          ∧ win.end_run = win.start_run + (win.end_run - win.start_run)
          ∧ win.start_run + (win.end_run - win.start_run) ≤ runs.length
          ∧ t <:+: mergedSlice (runs.map (fun r => r.text)) win.start_run
              (win.end_run - win.start_run))
        ∧ (∀ w i, 1 ≤ w → i + w ≤ runs.length →
            t <:+: mergedSlice (runs.map (fun r => r.text)) i w →
            win.end_run - win.start_run < w ∨
              (win.end_run - win.start_run = w ∧ win.start_run ≤ i))) := by
  constructor
  · intro hnone w i hw1 hiw hinf
    simp only [RunModel.find_run_window] at hnone
    have hrow := (findWidthsFrom_eq_none_iff (runs.map (fun r => r.text)) t runs.length
      runs.length 1).mp hnone (w - 1) (by omega)
    have h1 : 1 + (w - 1) = w := by omega
    rw [h1] at hrow
    have hcell := (findRowFrom_eq_none_iff (runs.map (fun r => r.text)) t w
      (runs.length - w + 1) 0).mp hrow i (by omega)
    rw [Nat.zero_add] at hcell
    exact (windowAt_eq_none_iff (runs.map (fun r => r.text)) t i w).mp hcell hinf
  · intro win hsome
    simp only [RunModel.find_run_window] at hsome
    obtain ⟨k, hk, hrowk, hprev⟩ := findWidthsFrom_eq_some (runs.map (fun r => r.text)) t
      runs.length runs.length 1 win hsome
    obtain ⟨j, hj, hwinj, hjprev⟩ := findRowFrom_eq_some (runs.map (fun r => r.text)) t
      (1 + k) (runs.length - (1 + k) + 1) 0 win hrowk
    rw [Nat.zero_add] at hwinj
    obtain ⟨hstart, hend, hinf⟩ := windowAt_eq_some (runs.map (fun r => r.text)) t j
      (1 + k) win hwinj
    have hw0 : win.end_run - win.start_run = 1 + k := by omega
    constructor
    · refine ⟨by omega, by omega, by omega, ?_⟩
      rw [hstart]
      rw [show win.end_run - j = 1 + k from by omega]
      exact hinf
    · intro w i hw1 hiw hiwinf
      by_cases hlt : w < 1 + k
      · exfalso
        have hrw := hprev (w - 1) (by omega)
        have h1 : 1 + (w - 1) = w := by omega
        rw [h1] at hrw
        have hcell := (findRowFrom_eq_none_iff (runs.map (fun r => r.text)) t w
          (runs.length - w + 1) 0).mp hrw i (by omega)
        rw [Nat.zero_add] at hcell
        exact (windowAt_eq_none_iff (runs.map (fun r => r.text)) t i w).mp hcell hiwinf
      · by_cases heq : w = 1 + k
        · right
          refine ⟨by omega, ?_⟩
          by_contra hlt2
          push_neg at hlt2
          have hcell := hjprev i (by omega)
          rw [Nat.zero_add] at hcell
          rw [heq] at hiwinf
          exact (windowAt_eq_none_iff (runs.map (fun r => r.text)) t i (1 + k)).mp hcell hiwinf
        · left
          omega

/-- Witness for C2: two runs `"ab"`, `"cd"` with target `"bc"` (found only
at width 2, starting at run 0). -/
theorem find_run_window_minimal_witness :
    ("bc".toList ≠ ([] : Str))
    ∧ ((RunModel.find_run_window [{ text := "ab".toList }, { text := "cd".toList }] ("bc".toList)
          = none →
        ∀ w i, 1 ≤ w →
          i + w ≤ ([{ text := "ab".toList }, { text := "cd".toList }] : List RunModel).length →
          ¬ "bc".toList <:+:
            mergedSlice (([{ text := "ab".toList }, { text := "cd".toList }] : List RunModel).map
              (fun r => r.text)) i w)
      ∧ (∀ win,
          RunModel.find_run_window [{ text := "ab".toList }, { text := "cd".toList }]
            ("bc".toList) = some win →
          (1 ≤ win.end_run - win.start_run
            ∧ win.end_run = win.start_run + (win.end_run - win.start_run)
            ∧ win.start_run + (win.end_run - win.start_run)
                ≤ ([{ text := "ab".toList }, { text := "cd".toList }] : List RunModel).length
            ∧ "bc".toList <:+:
                mergedSlice (([{ text := "ab".toList }, { text := "cd".toList }] : List RunModel).map
                  (fun r => r.text)) win.start_run (win.end_run - win.start_run))
          ∧ (∀ w i, 1 ≤ w →
              i + w ≤ ([{ text := "ab".toList }, { text := "cd".toList }] : List RunModel).length →
              "bc".toList <:+:
                mergedSlice (([{ text := "ab".toList }, { text := "cd".toList }] : List RunModel).map
                  (fun r => r.text)) i w →
              win.end_run - win.start_run < w ∨
                (win.end_run - win.start_run = w ∧ win.start_run ≤ i)))) :=
  ⟨by decide,
   find_run_window_minimal [{ text := "ab".toList }, { text := "cd".toList }] ("bc".toList)
     (by decide)⟩

/-! ## C3: heading-stack correctness of the hierarchy builder -/

theorem hbList_append (xs : List (Option ElementModel)) :
    ∀ (ys : List (Option ElementModel)) (st : HState),
      hbList st (xs ++ ys) =
        ((hbList st xs).1 ++ (hbList (hbList st xs).2 ys).1, (hbList (hbList st xs).2 ys).2) := by
  induction xs with
  | nil => intro ys st; simp [hbList]
  | cons e rest ih => intro ys st; simp [hbList, ih]

/-- The layout-threaded hierarchy pass agrees, on the flattened element
sequence, with the flat-list pass (`iter_elements` order). -/
theorem hbLayouts_flatten (ls : List LayoutModel) : ∀ st : HState,
    (((hbLayouts st ls).1.map (fun ly => ly.elements)).flatten,
        (hbLayouts st ls).2) =
      hbList st ((ls.map (fun ly => ly.elements)).flatten) := by
  induction ls with
  | nil => intro st; simp [hbLayouts, hbList]
  | cons ly rest ih =>
    intro st
    simp only [hbLayouts, List.map_cons, List.flatten_cons, hbList_append]
    have h := ih (hbList st ly.elements).2
    rw [Prod.ext_iff] at h
    have h1 : (List.map (fun ly => ly.elements) (hbLayouts (hbList st ly.elements).2 rest).1).flatten
        = (hbList (hbList st ly.elements).2 (List.map (fun ly => ly.elements) rest).flatten).1 := h.1
    have h2 : (hbLayouts (hbList st ly.elements).2 rest).2
        = (hbList (hbList st ly.elements).2 (List.map (fun ly => ly.elements) rest).flatten).2 := h.2
    simp [h1, h2]

/-- C3.  For a document whose flattened elements are five paragraphs whose
styles classify as headings of levels 1, 2, 3, 2, 1, the hierarchy builder
assigns `parent_ref_id` values `[none, h1, h2, h1, none]` where `h1`, `h2`
are the ids of the first level-1 and the first level-2 heading; each heading
also gets its `is_heading` flag and level, the stack is updated at its level
and deeper levels are cleared. -/
theorem build_hierarchy_heading_stack (doc : DocumentModel)
    (p1 p2 p3 p4 p5 : ParagraphModel)
    (helems : (doc.layouts.map (fun ly => ly.elements)).flatten =
      [some (ElementModel.para p1), some (ElementModel.para p2), some (ElementModel.para p3),
       some (ElementModel.para p4), some (ElementModel.para p5)])
    (h1 : classify_style p1.style = (some ("heading".toList), some 1))
    (h2 : classify_style p2.style = (some ("heading".toList), some 2))
    (h3 : classify_style p3.style = (some ("heading".toList), some 3))
    (h4 : classify_style p4.style = (some ("heading".toList), some 2))
    (h5 : classify_style p5.style = (some ("heading".toList), some 1)) :
    ((doc.build_hierarchy).layouts.map (fun ly => ly.elements)).flatten =
      [some (ElementModel.para
         { p1 with is_heading := true, heading_level := some 1, parent_ref_id := none }),
       some (ElementModel.para
         { p2 with is_heading := true, heading_level := some 2, parent_ref_id := p1.id }),
       some (ElementModel.para
         { p3 with is_heading := true, heading_level := some 3, parent_ref_id := p2.id }),
       some (ElementModel.para
         { p4 with is_heading := true, heading_level := some 2, parent_ref_id := p1.id }),
       some (ElementModel.para
         { p5 with is_heading := true, heading_level := some 1, parent_ref_id := none })] := by
  have hflat := hbLayouts_flatten doc.layouts initHState
  rw [Prod.ext_iff] at hflat
  have hmain : ((hbLayouts initHState doc.layouts).1.map (fun ly => ly.elements)).flatten
      = (hbList initHState ((doc.layouts.map (fun ly => ly.elements)).flatten)).1 := hflat.1
  rw [DocumentModel.build_hierarchy]
  simp only []
  rw [hmain, helems]
  simp [hbList, hbElem, hbPara, h1, h2, h3, h4, h5, stackParent, initHState]

set_option maxRecDepth 8000

/-- The five-heading document used to witness C3. -/
def c3Para (n i : Str) : ParagraphModel := { style := some { name := n }, id := some i }

def c3Doc : DocumentModel :=
  { layouts :=
      [{ orientation := "PORTRAIT".toList,
         elements := [some (ElementModel.para (c3Para ("Heading 1".toList) ("h1".toList))),
                      some (ElementModel.para (c3Para ("Heading 2".toList) ("h2".toList))),
                      some (ElementModel.para (c3Para ("Heading 3".toList) ("h3".toList))),
                      some (ElementModel.para (c3Para ("Heading 2".toList) ("h4".toList))),
                      some (ElementModel.para (c3Para ("Heading 1".toList) ("h5".toList)))] }] }

/-- Witness for C3: one layout with five paragraphs styled `Heading 1`,
`Heading 2`, `Heading 3`, `Heading 2`, `Heading 1`. -/
theorem build_hierarchy_heading_stack_witness :
    ((DocumentModel.build_hierarchy c3Doc).layouts.map (fun ly => ly.elements)).flatten =
      [some (ElementModel.para { c3Para ("Heading 1".toList) ("h1".toList) with
         is_heading := true, heading_level := some 1, parent_ref_id := none }),
       some (ElementModel.para { c3Para ("Heading 2".toList) ("h2".toList) with
         is_heading := true, heading_level := some 2, parent_ref_id := some ("h1".toList) }),
       some (ElementModel.para { c3Para ("Heading 3".toList) ("h3".toList) with
         is_heading := true, heading_level := some 3, parent_ref_id := some ("h2".toList) }),
       some (ElementModel.para { c3Para ("Heading 2".toList) ("h4".toList) with
         is_heading := true, heading_level := some 2, parent_ref_id := some ("h1".toList) }),
       some (ElementModel.para { c3Para ("Heading 1".toList) ("h5".toList) with
         is_heading := true, heading_level := some 1, parent_ref_id := none })] :=
  build_hierarchy_heading_stack c3Doc
    (c3Para ("Heading 1".toList) ("h1".toList))
    (c3Para ("Heading 2".toList) ("h2".toList))
    (c3Para ("Heading 3".toList) ("h3".toList))
    (c3Para ("Heading 2".toList) ("h4".toList))
    (c3Para ("Heading 1".toList) ("h5".toList))
    (by decide) (by decide) (by decide) (by decide) (by decide) (by decide)

/-! ## C4: cache invalidation after `apply_placeholders` -/

/-- C4 (amended).  After `apply_placeholders` on a non-empty batch the
element-by-ID index is invalidated (emptied), but the paragraph order index
(paragraph order list and ID-to-paragraph map) is NOT invalidated: it is
left exactly as it was before the mutation. -/
theorem apply_placeholders_index_invalidation (doc : DocumentModel)
    (phs : List PlaceholderModel) (h : phs ≠ []) :
    (doc.apply_placeholders phs).element_index = []
    ∧ (doc.apply_placeholders phs).paragraph_index = doc.paragraph_index
    ∧ (doc.apply_placeholders phs).paragraph_order = doc.paragraph_order := by
  simp [DocumentModel.apply_placeholders, h]

/-- Document used against C4: one paragraph, with the paragraph-order cache
already built (as `get_next_paragraph_text` leaves it). -/
def c4Doc : DocumentModel :=
  { layouts :=
      [{ orientation := "PORTRAIT".toList,
         elements := [some (ElementModel.para
           { id := some ("p".toList), runs := [{ text := "Hello".toList }] })] }],
    paragraph_index := [(some ("p".toList),
      { id := some ("p".toList), runs := [{ text := "Hello".toList }] })],
    paragraph_order := [some ("p".toList)] }

def c4Ph : PlaceholderModel :=
  { id := "ph0".toList, text := "Hello".toList,
    status := PlaceholderStatus.matchingPending, element_id := some ("p".toList) }

/-- Counterexample to C4 as stated: after a non-empty batch the paragraph
order index still holds its pre-mutation contents (it is not emptied), so a
subsequent read can observe them. -/
theorem apply_placeholders_paragraph_index_not_cleared :
    (c4Doc.apply_placeholders [c4Ph]).paragraph_order = [some ("p".toList)]
    ∧ (c4Doc.apply_placeholders [c4Ph]).paragraph_order ≠ []
    ∧ (c4Doc.apply_placeholders [c4Ph]).paragraph_index ≠ [] := by decide

/-- Witness for C4 (amended) at the concrete document and batch. -/
theorem apply_placeholders_index_invalidation_witness :
    (c4Doc.apply_placeholders [c4Ph]).element_index = []
    ∧ (c4Doc.apply_placeholders [c4Ph]).paragraph_index = c4Doc.paragraph_index
    ∧ (c4Doc.apply_placeholders [c4Ph]).paragraph_order = c4Doc.paragraph_order :=
  apply_placeholders_index_invalidation c4Doc [c4Ph] (by decide)

/-! ## C5: deserialization of unknown element types -/

/-- C5 (amended).  A layout element record whose declared type is neither
`"Paragraph"` nor `"Table"` deserializes to a `None` entry that is KEPT in
the elements sequence: the sequence is the record-wise image of
`element_from_dict`, its length equals the TOTAL number of element records,
and the entry for an unrecognized record is `none`. -/
theorem layout_from_dict_unknown_kept :
    (∀ d : LayoutRecord,
        (LayoutModel.from_dict d).elements = d.elements.map element_from_dict
        ∧ (LayoutModel.from_dict d).elements.length = d.elements.length)
    ∧ (∀ rec : ElementRecord, rec.type ≠ "Paragraph".toList → rec.type ≠ "Table".toList →
        element_from_dict rec = none) := by
  constructor
  · intro d
    simp [LayoutModel.from_dict]
  · intro rec hp ht
    unfold element_from_dict
    rw [if_neg hp, if_neg ht]

def c5Rec : LayoutRecord :=
  { orientation := "PORTRAIT".toList, elements := [{ type := "Chart".toList }] }

/-- Counterexample to C5 as stated: a layout with one unrecognized record
yields an elements sequence of length 1 holding `none` — the record is not
dropped from the sequence (the claim predicts length 0). -/
theorem layout_from_dict_unknown_not_dropped :
    (LayoutModel.from_dict c5Rec).elements = [none]
    ∧ (LayoutModel.from_dict c5Rec).elements.length ≠ 0 := by decide

/-- Witness for C5 (amended) at the one-unknown-record layout. -/
theorem layout_from_dict_unknown_kept_witness :
    ((LayoutModel.from_dict c5Rec).elements = c5Rec.elements.map element_from_dict
      ∧ (LayoutModel.from_dict c5Rec).elements.length = c5Rec.elements.length)
    ∧ element_from_dict { type := "Chart".toList } = none :=
  ⟨layout_from_dict_unknown_kept.1 c5Rec,
   layout_from_dict_unknown_kept.2 { type := "Chart".toList } (by decide) (by decide)⟩

/-! ## C6: run-to-HTML tag wrapping order -/

/-- The CSS `style="…"` attribute string of `to_html`, as the spec section
describes it. -/
def spanStyleAttr (a : RunAttributes) : Str :=
  let styles : List Str :=
    (match a.font_size with
     | some q => if q ≠ 0 then ["font-size: ".toList ++ fmtFloat q ++ "pt".toList] else []
     | none => []) ++
    (if pyTruthy a.font_name then ["font-family: '".toList ++ a.font_name.getD [] ++ "'".toList] else []) ++
    (if pyTruthy a.font_color then ["color: #".toList ++ a.font_color.getD [] ] else []) ++
    (if pyTruthyB a.underline then ["text-decoration: underline".toList] else []) ++
    (if pyTruthy a.caseMode then
      (if a.caseMode = some ("upper".toList) then ["text-transform: uppercase".toList]
       else if a.caseMode = some ("capitalize".toList) then ["text-transform: capitalize".toList]
       else if a.caseMode = some ("sentence".toList) then ["text-transform: none".toList]
       else [])
     else [])
  if styles ≠ [] then " style=\"".toList ++ List.intercalate ("; ".toList) styles ++ "\"".toList else []

/-- The class / data-comments / data-track attribute string of `to_html`. -/
def spanHtmlAttr (a : RunAttributes) : Str :=
  let html_attrs : List Str :=
    (if pyTruthyL a.styles then ["class=\"".toList ++ List.intercalate (" ".toList) (a.styles.getD []) ++ "\"".toList] else []) ++
    (if pyTruthyL a.comment_ids then ["data-comments=\"".toList ++ List.intercalate (" ".toList) (a.comment_ids.getD []) ++ "\"".toList] else []) ++
    (if pyTruthy a.tracked_change then ["data-track=\"".toList ++ a.tracked_change.getD [] ++ "\"".toList] else [])
  if html_attrs ≠ [] then " ".toList ++ List.intercalate (" ".toList) html_attrs else []

/-- Tag nesting applied to the escaped content, innermost-first `strong`,
then `em`, then `sub`, then `sup`. -/
def wrapNest (a : RunAttributes) (s : Str) : Str :=
  let s1 := if pyTruthyB a.bold then "<strong>".toList ++ s ++ "</strong>".toList else s
  let s2 := if pyTruthyB a.italic then "<em>".toList ++ s1 ++ "</em>".toList else s1
  let s3 := if pyTruthyB a.subscript then "<sub>".toList ++ s2 ++ "</sub>".toList else s2
  if pyTruthyB a.superscript then "<sup>".toList ++ s3 ++ "</sup>".toList else s3

/-- C6 (amended).  For a run with non-empty text, `to_html` HTML-escapes the
text and wraps it innermost-first in `<strong>`, then `<em>`, then `<sub>`,
then `<sup>` (for each flag that is set) — NOT sup-innermost as claimed —
and finally in a single outer `<span>` carrying the computed style and
class/data attributes. -/
theorem to_html_wrap_order (r : RunModel) (hne : r.text ≠ []) :
    r.to_html = "<span".toList ++ spanStyleAttr r.attributes ++ spanHtmlAttr r.attributes
      ++ ">".toList ++ wrapNest r.attributes (htmlEscape r.text) ++ "</span>".toList := by
  rw [RunModel.to_html, if_neg hne]
  rfl

def c6Run : RunModel :=
  { text := "x".toList, attributes := { bold := some true, superscript := some true } }

/-- Counterexample to C6 as stated: for a bold superscript run the rendering
is `<span><sup><strong>x</strong></sup></span>` (strong innermost), not the
claimed `<span><strong><sup>x</sup></strong></span>` (sup innermost). -/
theorem to_html_wrap_order_counterexample :
    c6Run.to_html = "<span><sup><strong>x</strong></sup></span>".toList
    ∧ c6Run.to_html ≠ "<span><strong><sup>x</sup></strong></span>".toList := by decide

/-- Witness for C6 (amended) at the bold superscript run. -/
theorem to_html_wrap_order_witness :
    c6Run.to_html = "<span".toList ++ spanStyleAttr c6Run.attributes ++ spanHtmlAttr c6Run.attributes
      ++ ">".toList ++ wrapNest c6Run.attributes (htmlEscape c6Run.text) ++ "</span>".toList :=
  to_html_wrap_order c6Run (by decide)

/-! ## C7: paragraph intent classification -/

/-- C7 (amended).  With every run resolving to a valid colour:
if any resolved colour is at Euclidean RGB distance greater than 10 from the
FIRST run's colour (not: any two pairwise), the result is `none`; otherwise
the FIRST colour is the representative: `"instruction"` strictly within
distance 60 of `#00B050`, else `"example"` strictly within 60 of `#C9211E`,
else `none`.  When some run resolves no colour (or there are no runs), the
result is `none`. -/
theorem classify_intent_spec :
    (∀ p : ParagraphModel, collectColors p.runs = none → p.classify_intent = none)
    ∧ (∀ p : ParagraphModel, collectColors p.runs = some [] → p.classify_intent = none)
    ∧ (∀ (p : ParagraphModel) (c0 : Nat × Nat × Nat) (cs : List (Nat × Nat × Nat)),
        collectColors p.runs = some (c0 :: cs) →
        ((∃ c ∈ c0 :: cs, distSq c0 c > 100) → p.classify_intent = none)
        ∧ ((∀ c ∈ c0 :: cs, distSq c0 c ≤ 100) →
            (distSq c0 GREEN_REF < 3600 → p.classify_intent = some ("instruction".toList))
            ∧ (3600 ≤ distSq c0 GREEN_REF → distSq c0 RED_REF < 3600 →
                p.classify_intent = some ("example".toList))
            ∧ (3600 ≤ distSq c0 GREEN_REF → 3600 ≤ distSq c0 RED_REF →
                p.classify_intent = none))) := by
  refine ⟨?_, ?_, ?_⟩
  · intro p h
    simp [ParagraphModel.classify_intent, h]
  · intro p h
    simp [ParagraphModel.classify_intent, h]
  · intro p c0 cs h
    constructor
    · intro hex
      have hany : (c0 :: cs).any (fun c => distSq c0 c > 100) = true := by
        simp only [List.any_eq_true, decide_eq_true_eq]
        exact hex
      simp [ParagraphModel.classify_intent, h, hany]
    · intro hall
      have hany : (c0 :: cs).any (fun c => distSq c0 c > 100) = false := by
        simp only [List.any_eq_false, decide_eq_true_eq]
        intro c hc
        have := hall c hc
        omega
      refine ⟨?_, ?_, ?_⟩
      · intro hg
        simp [ParagraphModel.classify_intent, h, hany, hg]
      · intro hg hr
        have hgf : ¬ distSq c0 GREEN_REF < 3600 := by omega
        simp [ParagraphModel.classify_intent, h, hany, hgf, hr]
      · intro hg hr
        have hgf : ¬ distSq c0 GREEN_REF < 3600 := by omega
        have hrf : ¬ distSq c0 RED_REF < 3600 := by omega
        simp [ParagraphModel.classify_intent, h, hany, hgf, hrf]

def c7Para : ParagraphModel :=
  { runs := [{ text := "a".toList, attributes := { font_color := some ("00B050".toList) } },
             { text := "b".toList, attributes := { font_color := some ("0AB050".toList) } },
             { text := "c".toList, attributes := { font_color := some ("00BA50".toList) } }] }

/-- Counterexample to C7 as stated: the three runs resolve to `00B050`,
`0AB050`, `00BA50`; the second and third colours are at squared distance 200
(distance √200 > 10), so the claim demands `none`, but the code only checks
distances from the first colour (both 10) and classifies `"instruction"`. -/
theorem classify_intent_pairwise_counterexample :
    collectColors c7Para.runs = some [(0, 176, 80), (10, 176, 80), (0, 186, 80)]
    ∧ distSq (10, 176, 80) (0, 186, 80) > 100
    ∧ c7Para.classify_intent = some ("instruction".toList)
    ∧ c7Para.classify_intent ≠ none := by decide

def c7Green : ParagraphModel :=
  { runs := [{ text := "a".toList, attributes := { font_color := some ("00B050".toList) } }] }

/-- Witness for C7 (amended) at a single instruction-green run. -/
theorem classify_intent_spec_witness :
    ((∃ c ∈ [((0 : Nat), (176 : Nat), (80 : Nat))], distSq (0, 176, 80) c > 100) →
        c7Green.classify_intent = none)
    ∧ ((∀ c ∈ [((0 : Nat), (176 : Nat), (80 : Nat))], distSq (0, 176, 80) c ≤ 100) →
        (distSq (0, 176, 80) GREEN_REF < 3600 →
            c7Green.classify_intent = some ("instruction".toList))
        ∧ (3600 ≤ distSq (0, 176, 80) GREEN_REF → distSq (0, 176, 80) RED_REF < 3600 →
            c7Green.classify_intent = some ("example".toList))
        ∧ (3600 ≤ distSq (0, 176, 80) GREEN_REF → 3600 ≤ distSq (0, 176, 80) RED_REF →
            c7Green.classify_intent = none)) :=
  classify_intent_spec.2.2 c7Green (0, 176, 80) [] (by decide)

/-! ## C8: table classification -/

/-- C8.  For a table with at least one row: one column classifies as
`"Layout"`; otherwise, if the column count equals the colspan sum of the
non-null cells among the first two slots of the first row, `"Keyvalue"`;
otherwise `"Unknown"`. -/
theorem get_type_spec (t : TableModel) (row0 : List (Option TableCellModel))
    (rest : List (List (Option TableCellModel))) (hrows : t.rows = row0 :: rest) :
    (row0.length = 1 → t.get_type = some ("Layout".toList))
    ∧ (row0.length ≠ 1 →
        (row0.length : Int) =
            (((row0.take 2).filterMap (fun c => c)).map (fun c => c.colspan)).sum →
        t.get_type = some ("Keyvalue".toList))
    ∧ (row0.length ≠ 1 →
        (row0.length : Int) ≠
            (((row0.take 2).filterMap (fun c => c)).map (fun c => c.colspan)).sum →
        t.get_type = some ("Unknown".toList)) := by
  refine ⟨?_, ?_, ?_⟩
  · intro h1
    simp [TableModel.get_type, hrows, h1]
  · intro h1 heq
    have hc1 : ¬ ((row0.length : Int) = 1) := fun hc => h1 (by omega)
    have hc2 : (row0.length : Int)
        - (((row0.take 2).filterMap (fun c => c)).map (fun c => c.colspan)).sum = 0 := by omega
    simp [TableModel.get_type, hrows, hc1, hc2]
  · intro h1 hne
    have hc1 : ¬ ((row0.length : Int) = 1) := fun hc => h1 (by omega)
    have hc2 : ¬ ((row0.length : Int)
        - (((row0.take 2).filterMap (fun c => c)).map (fun c => c.colspan)).sum = 0) := by omega
    simp [TableModel.get_type, hrows, hc1, hc2]

def c8Table : TableModel :=
  { rows := [[some { colspan := 1 }, some { colspan := 1 }]] }

/-- Witness for C8: a two-column table whose first row's two cells both have
colspan 1 classifies as `"Keyvalue"`. -/
theorem get_type_spec_witness :
    ([some ({ colspan := 1 } : TableCellModel), some ({ colspan := 1 } : TableCellModel)].length ≠ 1 →
      (([some ({ colspan := 1 } : TableCellModel), some ({ colspan := 1 } : TableCellModel)].length : Int)
          = ((([some ({ colspan := 1 } : TableCellModel), some ({ colspan := 1 } : TableCellModel)].take 2).filterMap
                (fun c => c)).map (fun c => c.colspan)).sum) →
      c8Table.get_type = some ("Keyvalue".toList)) ∧ c8Table.get_type = some ("Keyvalue".toList) := by
  have h := (get_type_spec c8Table
    [some { colspan := 1 }, some { colspan := 1 }] [] (by decide)).2.1
  exact ⟨h, h (by decide) (by decide)⟩

/-! ## C9: full-range run slicing -/

/-- C9 (amended).  For a run with NON-EMPTY text, `slice_run(r, 0, len)`
returns a run textually identical to `r` with copied attributes (a fresh
default `type`/`id`).  For empty text the guard `start ≥ end` fires and the
result is `none`, so the claim's "for every run" fails. -/
theorem slice_run_full_range (r : RunModel) (hne : r.text ≠ []) :
    RunModel.slice_run r 0 r.text.length = some { text := r.text, attributes := r.attributes } := by
  have hlen : 0 < r.text.length := List.length_pos.mpr hne
  rw [RunModel.slice_run, if_neg (by omega)]
  simp

def c9Run : RunModel := { text := [] }

/-- Counterexample to C9 as stated: at an empty-text run,
`slice_run(r, 0, len(r.text))` is `none`, not a run. -/
theorem slice_run_empty_text_counterexample :
    RunModel.slice_run c9Run 0 c9Run.text.length = none := by decide

/-- Witness for C9 (amended) at a two-character run. -/
theorem slice_run_full_range_witness :
    RunModel.slice_run { text := "ab".toList } 0 (("ab".toList : Str)).length =
      some { text := "ab".toList, attributes := ({} : RunAttributes) } :=
  slice_run_full_range { text := "ab".toList } (by decide)

/-! ## C10: empty target text -/

theorem strFind_nil_needle (hay : Str) : strFind hay [] = some 0 := by
  cases hay <;> simp [strFind, List.isPrefixOf]

/-- C10.  On a non-empty run list, `find_run_window` with the empty string
as target returns the width-1 window `{start_run 0, end_run 1, char_start 0,
char_end 0}` (merged text = the first run's text) rather than "not found";
consequently `replace_text` treats the empty target as found at the start of
the first run: it prepends the insertion-marked parsed replacement (for a
first run with non-empty text, the rest of the list is kept, the first run
surviving as its full "after" fragment). -/
theorem find_run_window_empty_target (r0 : RunModel) (rest : List RunModel) :
    RunModel.find_run_window (r0 :: rest) [] = some ⟨0, 1, 0, 0, r0.text⟩
    ∧ (r0.text ≠ [] → ∀ (html : Str) (comment : Option Str),
        RunModel.replace_text (r0 :: rest) [] html comment =
          RunModel.markInserted (RunModel.from_html html) comment
            ++ ({ text := r0.text, attributes := r0.attributes } : RunModel) :: rest) := by
  have hfind : RunModel.find_run_window (r0 :: rest) [] = some ⟨0, 1, 0, 0, r0.text⟩ := by
    show findWidthsFrom (r0.text :: rest.map (fun r => r.text)) [] (rest.length + 1) 1
        (rest.length + 1) = some ⟨0, 1, 0, 0, r0.text⟩
    show (match findRowFrom (r0.text :: rest.map (fun r => r.text)) [] 1 0
            ((rest.length + 1) - 1 + 1) with
          | some win => some win
          | none => findWidthsFrom (r0.text :: rest.map (fun r => r.text)) [] (rest.length + 1)
              2 rest.length) = some ⟨0, 1, 0, 0, r0.text⟩
    have hrow : findRowFrom (r0.text :: rest.map (fun r => r.text)) [] 1 0
        ((rest.length + 1) - 1 + 1) = some ⟨0, 1, 0, 0, r0.text⟩ := by
      have hsteps : (rest.length + 1) - 1 + 1 = rest.length + 1 := by omega
      rw [hsteps]
      show (match windowAt (r0.text :: rest.map (fun r => r.text)) [] 0 1 with
            | some win => some win
            | none => findRowFrom (r0.text :: rest.map (fun r => r.text)) [] 1 1 rest.length)
          = some ⟨0, 1, 0, 0, r0.text⟩
      have hwin : windowAt (r0.text :: rest.map (fun r => r.text)) [] 0 1
          = some ⟨0, 1, 0, 0, r0.text⟩ := by
        unfold windowAt mergedSlice
        simp [strFind_nil_needle]
      rw [hwin]
    rw [hrow]
  refine ⟨hfind, ?_⟩
  intro hne html comment
  rw [RunModel.replace_text, hfind]
  have hloop : RunModel.replaceLoop 0 0 [r0] 0 =
      ([], [], [{ text := r0.text, attributes := r0.attributes }]) := by
    simp only [RunModel.replaceLoop, RunModel.split_run]
    rw [show RunModel.slice_run r0 (0 - 0) (min r0.text.length (0 - 0)) = none from by
          simp [RunModel.slice_run]]
    rw [show RunModel.slice_run r0 0 (0 - 0) = none from by simp [RunModel.slice_run]]
    rw [show RunModel.slice_run r0 (min r0.text.length (0 - 0)) r0.text.length
          = some { text := r0.text, attributes := r0.attributes } from by
        have hlen : 0 < r0.text.length := List.length_pos.mpr hne
        rw [RunModel.slice_run, if_neg (by
          simp only [Nat.sub_self, Nat.min_zero, gt_iff_lt, lt_irrefl, false_or]
          omega)]
        simp]
    simp
  simp [hloop]

/-- Witness for C10 at a concrete two-character first run. -/
theorem find_run_window_empty_target_witness :
    RunModel.find_run_window [({ text := "ab".toList } : RunModel)] [] =
        some ⟨0, 1, 0, 0, "ab".toList⟩
    ∧ RunModel.replace_text [({ text := "ab".toList } : RunModel)] [] ("<em>q</em>".toList) none =
        RunModel.markInserted (RunModel.from_html ("<em>q</em>".toList)) none
          ++ [({ text := "ab".toList, attributes := {} } : RunModel)] :=
  ⟨(find_run_window_empty_target { text := "ab".toList } []).1,
   (find_run_window_empty_target { text := "ab".toList } []).2 (by decide)
     ("<em>q</em>".toList) none⟩
